import Mathlib

/-!
Verification of `dprisk.cpp`: a dynamic-programming computation of attacker
win probabilities for simplified Risk battles, together with an exhaustive
transition-probability enumeration and a Monte Carlo battle simulator.

The C++ code is shallowly embedded: machine `int` values become `ℤ` (or `ℕ`
for die faces and list lengths), `double` values become exact rationals `ℚ`,
the flat `std::vector<double>` grid becomes a total function `ℤ → ℚ` from
linear indices to values (entries outside the allocated range are modelled
by the junk value 0 and are proved never to be accessed), and loops become
folds or well-founded recursion.
-/

namespace DPRisk

/-- Embeds `attacker_dice` (dprisk.cpp lines 59-62): `min(a-1,3)` clamped to `≥ 0`. -/
def attacker_dice (a : ℤ) : ℤ :=
  let q := if a - 1 < 3 then a - 1 else 3
  if q < 0 then 0 else q

/-- Embeds `defender_dice` (lines 64-67): `min(d,2)` clamped to `≥ 0`. -/
def defender_dice (d : ℤ) : ℤ :=
  let q := if d < 2 then d else 2
  if q < 0 then 0 else q

/-- Embeds `sort_three` (lines 69-92): the three-exchange ascending sorting
network applied to `(a, b, c)`. -/
def sort_three (a b c : ℕ) : ℕ × ℕ × ℕ :=
  let p1 := if a > b then (b, a) else (a, b)
  let p2 := if p1.2 > c then (c, p1.2) else (p1.2, c)
  let p3 := if p1.1 > p2.1 then (p2.1, p1.1) else (p1.1, p2.1)
  (p3.1, p3.2, p2.2)

/-- The die-face values `1, 2, ..., S` iterated by every enumeration loop
(`for (int i = 1; i <= S; i++)`). -/
def faces (S : ℕ) : List ℕ := List.range' 1 S

/-- The fixed outcome-delta order `P = {(-2,0),(-1,-1),(-1,0),(0,-1),(0,-2)}`
of `create_prob_table` (line 301); `calc_transitions` fills its `counts`
vector in this order via the map `M`. -/
def transitions : List (ℤ × ℤ) := [(-2, 0), (-1, -1), (-1, 0), (0, -1), (0, -2)]

/-- The fixed dice-configuration order `T` of `create_prob_table` (line 298). -/
def dicetuples : List (ℤ × ℤ) := [(1, 1), (2, 1), (3, 1), (1, 2), (2, 2), (3, 2)]

/-- Outcome delta of the `na == 1 && nd == 1` branch of `calc_transitions`
(lines 162-173): the two `if` conditions `i > p` / `i <= p` are complementary,
so they classify each joint roll into exactly one delta. -/
def delta11 (i p : ℕ) : ℤ × ℤ :=
  if i > p then (0, -1) else (-1, 0)

/-- Outcome delta of the `na == 2 && nd == 1` branch (lines 175-189). -/
def delta21 (i j p : ℕ) : ℤ × ℤ :=
  let ijmax := if i > j then i else j
  if ijmax > p then (0, -1) else (-1, 0)

/-- Outcome delta of the `na == 3 && nd == 1` branch (lines 191-208). -/
def delta31 (i j k p : ℕ) : ℤ × ℤ :=
  let ijmax := if i > j then i else j
  let ijkmax := if k > ijmax then k else ijmax
  if ijkmax > p then (0, -1) else (-1, 0)

/-- Outcome delta of the `na == 1 && nd == 2` branch (lines 210-224). -/
def delta12 (i p q : ℕ) : ℤ × ℤ :=
  let pqmax := if p > q then p else q
  if pqmax ≥ i then (-1, 0) else (0, -1)

/-- Outcome delta of the `na == 2 && nd == 2` branch (lines 226-249): the four
`if` conditions are the four sign combinations of `ijmax > pqmax` and
`ijmin > pqmin`, hence mutually exclusive and exhaustive. -/
def delta22 (i j p q : ℕ) : ℤ × ℤ :=
  let ijmax := if i > j then i else j
  let ijmin := if i < j then i else j
  let pqmax := if p > q then p else q
  let pqmin := if p < q then p else q
  if ijmax > pqmax ∧ ijmin > pqmin then (0, -2)
  else if ijmax ≤ pqmax ∧ ijmin > pqmin then (-1, -1)
  else if ijmax > pqmax ∧ ijmin ≤ pqmin then (-1, -1)
  else (-2, 0)

/-- Outcome delta of the `na == 3 && nd == 2` branch (lines 251-283):
`ijkmid = ijk[1]` is the median of the attacker's three dice after
`sort_three`, compared against the defender's minimum. -/
def delta32 (i j k p q : ℕ) : ℤ × ℤ :=
  let ijmax := if i > j then i else j
  let ijkmax := if k > ijmax then k else ijmax
  let ijkmid := (sort_three i j k).2.1
  let pqmax := if p > q then p else q
  let pqmin := if p < q then p else q
  if ijkmax > pqmax ∧ ijkmid > pqmin then (0, -2)
  else if ijkmax ≤ pqmax ∧ ijkmid > pqmin then (-1, -1)
  else if ijkmax > pqmax ∧ ijkmid ≤ pqmin then (-1, -1)
  else (-2, 0)

/-- The `break` condition of the `na == 3 && nd == 2` branch (line 261):
`ijk[0] != ijkmin || ijk[2] != ijkmax`. -/
def break_guard32 (i j k : ℕ) : Bool :=
  let ijmax := if i > j then i else j
  let ijkmax := if k > ijmax then k else ijmax
  let ijmin := if i < j then i else j
  let ijkmin := if k < ijmin then k else ijmin
  let s := sort_three i j k
  (s.1 != ijkmin) || (s.2.2 != ijkmax)

/-- Joint rolls enumerated by the `(1,1)` branch, in loop order. -/
def tuples11 (S : ℕ) : List (ℕ × ℕ) :=
  (faces S).flatMap fun i => (faces S).map fun p => (i, p)

/-- Joint rolls enumerated by the `(2,1)` branch, in loop order. -/
def tuples21 (S : ℕ) : List (ℕ × ℕ × ℕ) :=
  (faces S).flatMap fun i => (faces S).flatMap fun j =>
    (faces S).map fun p => (i, j, p)

/-- Joint rolls enumerated by the `(3,1)` branch, in loop order. -/
def tuples31 (S : ℕ) : List (ℕ × ℕ × ℕ × ℕ) :=
  (faces S).flatMap fun i => (faces S).flatMap fun j =>
    (faces S).flatMap fun k => (faces S).map fun p => (i, j, k, p)

/-- Joint rolls enumerated by the `(1,2)` branch, in loop order. -/
def tuples12 (S : ℕ) : List (ℕ × ℕ × ℕ) :=
  (faces S).flatMap fun i => (faces S).flatMap fun p =>
    (faces S).map fun q => (i, p, q)

/-- Joint rolls enumerated by the `(2,2)` branch, in loop order. -/
def tuples22 (S : ℕ) : List (ℕ × ℕ × ℕ × ℕ) :=
  (faces S).flatMap fun i => (faces S).flatMap fun j =>
    (faces S).flatMap fun p => (faces S).map fun q => (i, j, p, q)

/-- The `(i, j)`-slice of the rolls enumerated by the `(3,2)` branch: the `k`
loop stops at the first `k` for which the `break` at line 261 fires
(`takeWhile` keeps exactly the iterations the `break` allows to run). -/
def tuples32_slice (S i j : ℕ) : List (ℕ × ℕ × ℕ × ℕ × ℕ) :=
  ((faces S).takeWhile fun k => !(break_guard32 i j k)).flatMap fun k =>
    (faces S).flatMap fun p => (faces S).map fun q => (i, j, k, p, q)

/-- Joint rolls enumerated by the `(3,2)` branch, in loop order. -/
def tuples32 (S : ℕ) : List (ℕ × ℕ × ℕ × ℕ × ℕ) :=
  (faces S).flatMap fun i => (faces S).flatMap fun j => tuples32_slice S i j

/-- Count accumulated in `counts[M[δ]]`: the number of enumerated rolls whose
branch conditions select delta `δ`. -/
def cnt {α : Type} (f : α → ℤ × ℤ) (l : List α) (δ : ℤ × ℤ) : ℕ :=
  l.countP fun t => decide (f t = δ)

/-- Embeds `calc_transitions` (lines 133-286): returns the pair
(counts vector in the order of `transitions`, denominator `O`). When `S < 2`
the function returns 0 without touching `counts` (line 140); the caller
passes a freshly cleared vector, modelled as `[]`. An unmatched dice
configuration leaves the five cleared slots at zero and returns 0 (line 285). -/
def calc_transitions (S : ℕ) (na nd : ℤ) : List ℕ × ℕ :=
  if S < 2 then ([], 0)
  else if na = 1 ∧ nd = 1 then
    (transitions.map (cnt (fun t => delta11 t.1 t.2) (tuples11 S)), (tuples11 S).length)
  else if na = 2 ∧ nd = 1 then
    (transitions.map (cnt (fun t => delta21 t.1 t.2.1 t.2.2) (tuples21 S)), (tuples21 S).length)
  else if na = 3 ∧ nd = 1 then
    (transitions.map (cnt (fun t => delta31 t.1 t.2.1 t.2.2.1 t.2.2.2) (tuples31 S)), (tuples31 S).length)
  else if na = 1 ∧ nd = 2 then
    (transitions.map (cnt (fun t => delta12 t.1 t.2.1 t.2.2) (tuples12 S)), (tuples12 S).length)
  else if na = 2 ∧ nd = 2 then
    (transitions.map (cnt (fun t => delta22 t.1 t.2.1 t.2.2.1 t.2.2.2) (tuples22 S)), (tuples22 S).length)
  else if na = 3 ∧ nd = 2 then
    (transitions.map (cnt (fun t => delta32 t.1 t.2.1 t.2.2.1 t.2.2.2.1 t.2.2.2.2) (tuples32 S)), (tuples32 S).length)
  else ([0, 0, 0, 0, 0], 0)

/-- Embeds the table built by `create_prob_table` (lines 311-332): row `t`
holds `counts[q] / tdenom` for the `t`-th dice configuration. -/
def create_prob_table (S : ℕ) : List (List ℚ) :=
  dicetuples.map fun t =>
    let r := calc_transitions S t.1 t.2
    r.1.map fun c : ℕ => (c : ℚ) / (r.2 : ℚ)

/-- Probability-table entry `probstable[q][i]` (out-of-range access defaults
to 0; all accesses proved in range where it matters). -/
def prob (S : ℕ) (q i : ℕ) : ℚ :=
  ((create_prob_table S).getD q []).getD i 0

/-- Embeds the `dice_map` lookup of `update_elements` (lines 349-352, 365):
the index of `(na, nd)` in `dicetuples`. `std::map::operator[]` on an absent
key default-inserts the value 0, hence the fallback. -/
def dice_index (na nd : ℤ) : ℕ :=
  let r := dicetuples.findIdx fun t => t == ((na, nd) : ℤ × ℤ)
  if r < dicetuples.length then r else 0

section ListLemmas

variable {α β : Type}

theorem countP_flatMap (p : β → Bool) (l : List α) (f : α → List β) :
    (l.flatMap f).countP p = (l.map fun a => (f a).countP p).sum := by
  induction l with
  | nil => simp
  | cons x xs ih => simp [List.flatMap_cons, List.countP_append, ih]

theorem length_flatMap_const (l : List α) (f : α → List β) (n : ℕ)
    (h : ∀ x ∈ l, (f x).length = n) : (l.flatMap f).length = l.length * n := by
  induction l with
  | nil => simp
  | cons x xs ih =>
    simp only [List.flatMap_cons, List.length_append, List.length_cons]
    rw [h x (by simp), ih (fun y hy => h y (by simp [hy]))]
    ring

theorem takeWhile_all (p : α → Bool) (l : List α) (h : ∀ x ∈ l, p x = true) :
    l.takeWhile p = l := by
  induction l with
  | nil => rfl
  | cons x xs ih =>
    rw [List.takeWhile_cons_of_pos (h x (by simp))]
    rw [ih fun y hy => h y (by simp [hy])]

/-- Each element is classified into exactly one value of a duplicate-free list
covering the classifier's image, so the per-value counts add up to the length. -/
theorem sum_cnt_eq_length (f : α → ℤ × ℤ) (l : List α) (ds : List (ℤ × ℤ))
    (hnd : ds.Nodup) (h : ∀ x ∈ l, f x ∈ ds) :
    (ds.map (cnt f l)).sum = l.length := by
  induction l with
  | nil =>
    have h0 : ds.map (cnt f []) = ds.map fun _ => 0 :=
      List.map_congr_left fun d _ => by simp [cnt]
    simp [h0]
  | cons x xs ih =>
    have hsum : ∀ (es : List (ℤ × ℤ)), es.Nodup → f x ∈ es →
        (es.map (cnt f (x :: xs))).sum = (es.map (cnt f xs)).sum + 1 := by
      intro es hes hmem
      induction es with
      | nil => simp at hmem
      | cons e es ihe =>
        rcases List.mem_cons.mp hmem with he | he
        · have hx : (decide (f x = e)) = true := by simp [he]
          have hnot : ∀ d ∈ es, cnt f (x :: xs) d = cnt f xs d := by
            intro d hd
            have hne : f x ≠ d := by
              intro hfd
              exact ((List.nodup_cons.mp hes).1) (by rw [← he, hfd]; exact hd)
            simp [cnt, List.countP_cons, hne]
          simp only [List.map_cons, List.sum_cons, cnt, List.countP_cons, hx, if_pos]
          have : (es.map (cnt f (x :: xs))).sum = (es.map (cnt f xs)).sum := by
            apply congrArg List.sum
            exact List.map_congr_left hnot
          simp only [cnt] at this
          omega
        · have hne : f x ≠ e := by
            intro hfe
            exact ((List.nodup_cons.mp hes).1) (hfe ▸ he)
          have h1 : cnt f (x :: xs) e = cnt f xs e := by
            simp [cnt, List.countP_cons, hne]
          simp only [List.map_cons, List.sum_cons, h1]
          rw [ihe (List.nodup_cons.mp hes).2 he]
          omega
    rw [hsum ds hnd (h x (by simp)), ih (fun y hy => h y (by simp [hy]))]
    simp

theorem sum_map_div (l : List ℕ) (x : ℚ) :
    (l.map fun c : ℕ => (c : ℚ) / x).sum = (l.sum : ℚ) / x := by
  induction l with
  | nil => simp
  | cons c cs ih =>
    simp only [List.map_cons, List.sum_cons, ih]
    push_cast
    rw [add_div]

end ListLemmas

theorem sort_three_spec (a b c : ℕ) :
    (sort_three a b c).1 = min (min a b) c ∧
    (sort_three a b c).2.2 = max (max a b) c ∧
    (sort_three a b c).1 + (sort_three a b c).2.1 + (sort_three a b c).2.2 = a + b + c := by
  simp only [sort_three]
  split_ifs <;> simp_all <;> omega

theorem break_guard32_false (i j k : ℕ) : break_guard32 i j k = false := by
  have h := sort_three_spec i j k
  simp only [break_guard32, Bool.or_eq_false_iff, bne_eq_false_iff_eq]
  constructor
  · rw [h.1]; split_ifs <;> omega
  · rw [h.2.1]; split_ifs <;> omega

theorem tuples32_slice_full (S i j : ℕ) :
    tuples32_slice S i j =
      (faces S).flatMap fun k => (faces S).flatMap fun p =>
        (faces S).map fun q => (i, j, k, p, q) := by
  unfold tuples32_slice
  rw [takeWhile_all _ _ (fun k _ => by simp [break_guard32_false])]

theorem faces_length (S : ℕ) : (faces S).length = S := by
  simp [faces]

theorem tuples11_length (S : ℕ) : (tuples11 S).length = S ^ 2 := by
  unfold tuples11
  rw [length_flatMap_const _ _ S (fun x _ => by simp [faces_length]), faces_length]
  ring

theorem tuples21_length (S : ℕ) : (tuples21 S).length = S ^ 3 := by
  unfold tuples21
  rw [length_flatMap_const _ _ (S ^ 2) (fun x _ => ?_), faces_length]
  · ring
  · rw [length_flatMap_const _ _ S (fun y _ => by simp [faces_length]), faces_length]
    ring

theorem tuples31_length (S : ℕ) : (tuples31 S).length = S ^ 4 := by
  unfold tuples31
  rw [length_flatMap_const _ _ (S ^ 3) (fun x _ => ?_), faces_length]
  · ring
  · rw [length_flatMap_const _ _ (S ^ 2) (fun y _ => ?_), faces_length]
    · ring
    · rw [length_flatMap_const _ _ S (fun z _ => by simp [faces_length]), faces_length]
      ring

theorem tuples12_length (S : ℕ) : (tuples12 S).length = S ^ 3 := by
  unfold tuples12
  rw [length_flatMap_const _ _ (S ^ 2) (fun x _ => ?_), faces_length]
  · ring
  · rw [length_flatMap_const _ _ S (fun y _ => by simp [faces_length]), faces_length]
    ring

theorem tuples22_length (S : ℕ) : (tuples22 S).length = S ^ 4 := by
  unfold tuples22
  rw [length_flatMap_const _ _ (S ^ 3) (fun x _ => ?_), faces_length]
  · ring
  · rw [length_flatMap_const _ _ (S ^ 2) (fun y _ => ?_), faces_length]
    · ring
    · rw [length_flatMap_const _ _ S (fun z _ => by simp [faces_length]), faces_length]
      ring

theorem tuples32_length (S : ℕ) : (tuples32 S).length = S ^ 5 := by
  unfold tuples32
  rw [length_flatMap_const _ _ (S ^ 4) (fun x _ => ?_), faces_length]
  · ring
  · rw [length_flatMap_const _ _ (S ^ 3) (fun y _ => ?_), faces_length]
    · ring
    · rw [tuples32_slice_full]
      rw [length_flatMap_const _ _ (S ^ 2) (fun z _ => ?_), faces_length]
      · ring
      · rw [length_flatMap_const _ _ S (fun w _ => by simp [faces_length]), faces_length]
        ring

end DPRisk

namespace DPRisk

theorem delta11_mem (i p : ℕ) : delta11 i p ∈ transitions := by
  simp only [delta11, transitions]
  split_ifs <;> simp

theorem delta21_mem (i j p : ℕ) : delta21 i j p ∈ transitions := by
  simp only [delta21, transitions]
  split_ifs <;> simp

theorem delta31_mem (i j k p : ℕ) : delta31 i j k p ∈ transitions := by
  simp only [delta31, transitions]
  split_ifs <;> simp

theorem delta12_mem (i p q : ℕ) : delta12 i p q ∈ transitions := by
  simp only [delta12, transitions]
  split_ifs <;> simp

theorem delta22_mem (i j p q : ℕ) : delta22 i j p q ∈ transitions := by
  simp only [delta22, transitions]
  split_ifs <;> simp

theorem delta32_mem (i j k p q : ℕ) : delta32 i j k p q ∈ transitions := by
  simp only [delta32, transitions]
  split_ifs <;> simp

theorem transitions_nodup : transitions.Nodup := by decide

/-- For `S ≥ 2` and each of the six supported configurations, the counts
vector has five entries, the returned denominator is the number of enumerated
joint rolls, and the counts sum to it. -/
theorem calc_transitions_spec (S : ℕ) (hS : 2 ≤ S) (na nd : ℤ)
    (h : (na, nd) ∈ dicetuples) :
    (calc_transitions S na nd).1.length = 5 ∧
    (calc_transitions S na nd).2 = S ^ (na + nd).toNat ∧
    (calc_transitions S na nd).1.sum = (calc_transitions S na nd).2 := by
  have hS' : ¬ (S < 2) := by omega
  simp only [dicetuples, List.mem_cons, List.not_mem_nil, or_false, Prod.mk.injEq] at h
  rcases h with ⟨h1, h2⟩ | ⟨h1, h2⟩ | ⟨h1, h2⟩ | ⟨h1, h2⟩ | ⟨h1, h2⟩ | ⟨h1, h2⟩ <;>
    subst h1 <;> subst h2 <;>
    simp only [calc_transitions, hS', if_false, if_true, and_self, reduceIte] <;>
    norm_num <;>
    refine ⟨by simp [transitions], ?_, ?_⟩
  · exact tuples11_length S
  · rw [sum_cnt_eq_length _ _ _ transitions_nodup fun x _ => delta11_mem x.1 x.2,
      tuples11_length]
  · exact tuples21_length S
  · rw [sum_cnt_eq_length _ _ _ transitions_nodup fun x _ => delta21_mem x.1 x.2.1 x.2.2,
      tuples21_length]
  · exact tuples31_length S
  · rw [sum_cnt_eq_length _ _ _ transitions_nodup
      fun x _ => delta31_mem x.1 x.2.1 x.2.2.1 x.2.2.2, tuples31_length]
  · exact tuples12_length S
  · rw [sum_cnt_eq_length _ _ _ transitions_nodup fun x _ => delta12_mem x.1 x.2.1 x.2.2,
      tuples12_length]
  · exact tuples22_length S
  · rw [sum_cnt_eq_length _ _ _ transitions_nodup
      fun x _ => delta22_mem x.1 x.2.1 x.2.2.1 x.2.2.2, tuples22_length]
  · exact tuples32_length S
  · rw [sum_cnt_eq_length _ _ _ transitions_nodup
      fun x _ => delta32_mem x.1 x.2.1 x.2.2.1 x.2.2.2.1 x.2.2.2.2, tuples32_length]

end DPRisk

namespace DPRisk

/-- Arithmetic summation `f 1 + f 2 + ... + f n`, used to evaluate the
enumeration counts without materialising tuple lists. -/
def sumTo (f : ℕ → ℕ) : ℕ → ℕ
  | 0 => 0
  | n + 1 => sumTo f n + f (n + 1)

theorem sum_map_faces (g : ℕ → ℕ) (S : ℕ) : ((faces S).map g).sum = sumTo g S := by
  induction S with
  | zero => rfl
  | succ n ih =>
    rw [faces, List.range'_1_concat, List.map_append, List.sum_append, ← faces, ih]
    simp [sumTo, Nat.add_comm 1 n]

theorem countP_indicator {α : Type} (p : α → Bool) (l : List α) :
    l.countP p = (l.map fun x => if p x then 1 else 0).sum := by
  induction l with
  | nil => rfl
  | cons x xs ih =>
    rw [List.countP_cons, List.map_cons, List.sum_cons, ih]
    split_ifs <;> omega

theorem countP_map {α β : Type} (p : β → Bool) (l : List α) (h : α → β) :
    (l.map h).countP p = l.countP fun a => p (h a) := by
  induction l with
  | nil => rfl
  | cons x xs ih => simp [List.countP_cons, ih]

theorem cnt_faces_flatMap {α : Type} (f : α → ℤ × ℤ) (g : ℕ → List α) (S : ℕ)
    (δ : ℤ × ℤ) :
    cnt f ((faces S).flatMap g) δ = sumTo (fun i => cnt f (g i) δ) S := by
  rw [cnt, countP_flatMap, ← sum_map_faces]
  rfl

theorem cnt_faces_map {α : Type} (f : α → ℤ × ℤ) (h : ℕ → α) (S : ℕ) (δ : ℤ × ℤ) :
    cnt f ((faces S).map h) δ =
      sumTo (fun q => if f (h q) = δ then 1 else 0) S := by
  rw [cnt, countP_map, countP_indicator, ← sum_map_faces]
  simp

theorem cnt11_eq_loop (S : ℕ) (δ : ℤ × ℤ) :
    cnt (fun t : ℕ × ℕ => delta11 t.1 t.2) (tuples11 S) δ =
      sumTo (fun i => sumTo (fun p => if delta11 i p = δ then 1 else 0) S) S := by
  simp only [tuples11, cnt_faces_flatMap, cnt_faces_map]

theorem cnt21_eq_loop (S : ℕ) (δ : ℤ × ℤ) :
    cnt (fun t : ℕ × ℕ × ℕ => delta21 t.1 t.2.1 t.2.2) (tuples21 S) δ =
      sumTo (fun i => sumTo (fun j => sumTo (fun p =>
        if delta21 i j p = δ then 1 else 0) S) S) S := by
  simp only [tuples21, cnt_faces_flatMap, cnt_faces_map]

theorem cnt31_eq_loop (S : ℕ) (δ : ℤ × ℤ) :
    cnt (fun t : ℕ × ℕ × ℕ × ℕ => delta31 t.1 t.2.1 t.2.2.1 t.2.2.2) (tuples31 S) δ =
      sumTo (fun i => sumTo (fun j => sumTo (fun k => sumTo (fun p =>
        if delta31 i j k p = δ then 1 else 0) S) S) S) S := by
  simp only [tuples31, cnt_faces_flatMap, cnt_faces_map]

theorem cnt12_eq_loop (S : ℕ) (δ : ℤ × ℤ) :
    cnt (fun t : ℕ × ℕ × ℕ => delta12 t.1 t.2.1 t.2.2) (tuples12 S) δ =
      sumTo (fun i => sumTo (fun p => sumTo (fun q =>
        if delta12 i p q = δ then 1 else 0) S) S) S := by
  simp only [tuples12, cnt_faces_flatMap, cnt_faces_map]

theorem cnt22_eq_loop (S : ℕ) (δ : ℤ × ℤ) :
    cnt (fun t : ℕ × ℕ × ℕ × ℕ => delta22 t.1 t.2.1 t.2.2.1 t.2.2.2) (tuples22 S) δ =
      sumTo (fun i => sumTo (fun j => sumTo (fun p => sumTo (fun q =>
        if delta22 i j p q = δ then 1 else 0) S) S) S) S := by
  simp only [tuples22, cnt_faces_flatMap, cnt_faces_map]

theorem cnt32_eq_loop (S : ℕ) (δ : ℤ × ℤ) :
    cnt (fun t : ℕ × ℕ × ℕ × ℕ × ℕ => delta32 t.1 t.2.1 t.2.2.1 t.2.2.2.1 t.2.2.2.2)
      (tuples32 S) δ =
      sumTo (fun i => sumTo (fun j => sumTo (fun k => sumTo (fun p => sumTo (fun q =>
        if delta32 i j k p q = δ then 1 else 0) S) S) S) S) S := by
  simp only [tuples32, tuples32_slice_full, cnt_faces_flatMap, cnt_faces_map]

end DPRisk

namespace DPRisk

theorem delta11_cases (i p : ℕ) :
    delta11 i p = (0, -1) ∨ delta11 i p = (-1, 0) := by
  simp only [delta11]
  split_ifs <;> simp

theorem delta21_cases (i j p : ℕ) :
    delta21 i j p = (0, -1) ∨ delta21 i j p = (-1, 0) := by
  simp only [delta21]
  split_ifs <;> simp

theorem delta31_cases (i j k p : ℕ) :
    delta31 i j k p = (0, -1) ∨ delta31 i j k p = (-1, 0) := by
  simp only [delta31]
  split_ifs <;> simp

theorem delta12_cases (i p q : ℕ) :
    delta12 i p q = (0, -1) ∨ delta12 i p q = (-1, 0) := by
  simp only [delta12]
  split_ifs <;> simp

theorem delta22_cases (i j p q : ℕ) :
    delta22 i j p q = (0, -2) ∨ delta22 i j p q = (-1, -1) ∨ delta22 i j p q = (-2, 0) := by
  simp only [delta22]
  split_ifs <;> simp

theorem delta32_cases (i j k p q : ℕ) :
    delta32 i j k p q = (0, -2) ∨ delta32 i j k p q = (-1, -1) ∨ delta32 i j k p q = (-2, 0) := by
  simp only [delta32]
  split_ifs <;> simp

theorem cnt_zero_of_cases {α : Type} (f : α → ℤ × ℤ) (l : List α) (ds : List (ℤ × ℤ))
    (hc : ∀ x ∈ l, f x ∈ ds) (δ : ℤ × ℤ) (hδ : δ ∉ ds) : cnt f l δ = 0 := by
  simp only [cnt, List.countP_eq_zero, decide_eq_true_eq]
  intro t ht he
  exact hδ (he ▸ hc t ht)

theorem cnt11_zero (S : ℕ) (δ : ℤ × ℤ) (hδ : δ ∉ ([(0, -1), (-1, 0)] : List (ℤ × ℤ))) :
    cnt (fun t : ℕ × ℕ => delta11 t.1 t.2) (tuples11 S) δ = 0 :=
  cnt_zero_of_cases _ _ _ (fun x _ => by rcases delta11_cases x.1 x.2 with h | h <;> simp [h]) δ hδ

theorem cnt21_zero (S : ℕ) (δ : ℤ × ℤ) (hδ : δ ∉ ([(0, -1), (-1, 0)] : List (ℤ × ℤ))) :
    cnt (fun t : ℕ × ℕ × ℕ => delta21 t.1 t.2.1 t.2.2) (tuples21 S) δ = 0 :=
  cnt_zero_of_cases _ _ _
    (fun x _ => by rcases delta21_cases x.1 x.2.1 x.2.2 with h | h <;> simp [h]) δ hδ

theorem cnt31_zero (S : ℕ) (δ : ℤ × ℤ) (hδ : δ ∉ ([(0, -1), (-1, 0)] : List (ℤ × ℤ))) :
    cnt (fun t : ℕ × ℕ × ℕ × ℕ => delta31 t.1 t.2.1 t.2.2.1 t.2.2.2) (tuples31 S) δ = 0 :=
  cnt_zero_of_cases _ _ _
    (fun x _ => by rcases delta31_cases x.1 x.2.1 x.2.2.1 x.2.2.2 with h | h <;> simp [h]) δ hδ

theorem cnt12_zero (S : ℕ) (δ : ℤ × ℤ) (hδ : δ ∉ ([(0, -1), (-1, 0)] : List (ℤ × ℤ))) :
    cnt (fun t : ℕ × ℕ × ℕ => delta12 t.1 t.2.1 t.2.2) (tuples12 S) δ = 0 :=
  cnt_zero_of_cases _ _ _
    (fun x _ => by rcases delta12_cases x.1 x.2.1 x.2.2 with h | h <;> simp [h]) δ hδ

theorem cnt22_zero (S : ℕ) (δ : ℤ × ℤ)
    (hδ : δ ∉ ([(0, -2), (-1, -1), (-2, 0)] : List (ℤ × ℤ))) :
    cnt (fun t : ℕ × ℕ × ℕ × ℕ => delta22 t.1 t.2.1 t.2.2.1 t.2.2.2) (tuples22 S) δ = 0 :=
  cnt_zero_of_cases _ _ _
    (fun x _ => by rcases delta22_cases x.1 x.2.1 x.2.2.1 x.2.2.2 with h | h | h <;> simp [h]) δ hδ

theorem cnt32_zero (S : ℕ) (δ : ℤ × ℤ)
    (hδ : δ ∉ ([(0, -2), (-1, -1), (-2, 0)] : List (ℤ × ℤ))) :
    cnt (fun t : ℕ × ℕ × ℕ × ℕ × ℕ => delta32 t.1 t.2.1 t.2.2.1 t.2.2.2.1 t.2.2.2.2)
      (tuples32 S) δ = 0 :=
  cnt_zero_of_cases _ _ _
    (fun x _ => by
      rcases delta32_cases x.1 x.2.1 x.2.2.1 x.2.2.2.1 x.2.2.2.2 with h | h | h <;> simp [h])
    δ hδ

set_option maxRecDepth 10000 in
theorem cnt11_6_01 :
    cnt (fun t : ℕ × ℕ => delta11 t.1 t.2) (tuples11 6) (0, -1) = 15 := by
  rw [cnt11_eq_loop]
  decide

set_option maxRecDepth 10000 in
theorem cnt11_6_10 :
    cnt (fun t : ℕ × ℕ => delta11 t.1 t.2) (tuples11 6) (-1, 0) = 21 := by
  rw [cnt11_eq_loop]
  decide

set_option maxRecDepth 10000 in
theorem cnt21_6_01 :
    cnt (fun t : ℕ × ℕ × ℕ => delta21 t.1 t.2.1 t.2.2) (tuples21 6) (0, -1) = 125 := by
  rw [cnt21_eq_loop]
  decide

set_option maxRecDepth 10000 in
theorem cnt21_6_10 :
    cnt (fun t : ℕ × ℕ × ℕ => delta21 t.1 t.2.1 t.2.2) (tuples21 6) (-1, 0) = 91 := by
  rw [cnt21_eq_loop]
  decide

set_option maxRecDepth 10000 in
theorem cnt12_6_01 :
    cnt (fun t : ℕ × ℕ × ℕ => delta12 t.1 t.2.1 t.2.2) (tuples12 6) (0, -1) = 55 := by
  rw [cnt12_eq_loop]
  decide

set_option maxRecDepth 10000 in
theorem cnt12_6_10 :
    cnt (fun t : ℕ × ℕ × ℕ => delta12 t.1 t.2.1 t.2.2) (tuples12 6) (-1, 0) = 161 := by
  rw [cnt12_eq_loop]
  decide

set_option maxRecDepth 10000 in
theorem cnt31_6_01 :
    cnt (fun t : ℕ × ℕ × ℕ × ℕ => delta31 t.1 t.2.1 t.2.2.1 t.2.2.2) (tuples31 6) (0, -1) = 855 := by
  rw [cnt31_eq_loop]
  decide

theorem cnt31_6_10 :
    cnt (fun t : ℕ × ℕ × ℕ × ℕ => delta31 t.1 t.2.1 t.2.2.1 t.2.2.2) (tuples31 6) (-1, 0) = 441 := by
  have hsum := sum_cnt_eq_length (fun t : ℕ × ℕ × ℕ × ℕ => delta31 t.1 t.2.1 t.2.2.1 t.2.2.2)
    (tuples31 6) transitions transitions_nodup
    (fun x _ => delta31_mem x.1 x.2.1 x.2.2.1 x.2.2.2)
  rw [tuples31_length] at hsum
  simp only [transitions, List.map_cons, List.map_nil, List.sum_cons, List.sum_nil] at hsum
  have h1 := cnt31_6_01
  have h2 := cnt31_zero 6 (-2, 0) (by decide)
  have h3 := cnt31_zero 6 (-1, -1) (by decide)
  have h4 := cnt31_zero 6 (0, -2) (by decide)
  omega

set_option maxRecDepth 10000 in
theorem cnt22_6_02 :
    cnt (fun t : ℕ × ℕ × ℕ × ℕ => delta22 t.1 t.2.1 t.2.2.1 t.2.2.2) (tuples22 6) (0, -2) = 295 := by
  rw [cnt22_eq_loop]
  decide

set_option maxRecDepth 10000 in
theorem cnt22_6_20 :
    cnt (fun t : ℕ × ℕ × ℕ × ℕ => delta22 t.1 t.2.1 t.2.2.1 t.2.2.2) (tuples22 6) (-2, 0) = 581 := by
  rw [cnt22_eq_loop]
  decide

theorem cnt22_6_11 :
    cnt (fun t : ℕ × ℕ × ℕ × ℕ => delta22 t.1 t.2.1 t.2.2.1 t.2.2.2) (tuples22 6) (-1, -1) = 420 := by
  have hsum := sum_cnt_eq_length (fun t : ℕ × ℕ × ℕ × ℕ => delta22 t.1 t.2.1 t.2.2.1 t.2.2.2)
    (tuples22 6) transitions transitions_nodup
    (fun x _ => delta22_mem x.1 x.2.1 x.2.2.1 x.2.2.2)
  rw [tuples22_length] at hsum
  simp only [transitions, List.map_cons, List.map_nil, List.sum_cons, List.sum_nil] at hsum
  have h1 := cnt22_6_02
  have h2 := cnt22_6_20
  have h3 := cnt22_zero 6 (-1, 0) (by decide)
  have h4 := cnt22_zero 6 (0, -1) (by decide)
  omega

set_option maxRecDepth 10000 in
theorem cnt32_6_02 :
    cnt (fun t : ℕ × ℕ × ℕ × ℕ × ℕ => delta32 t.1 t.2.1 t.2.2.1 t.2.2.2.1 t.2.2.2.2)
      (tuples32 6) (0, -2) = 2890 := by
  rw [cnt32_eq_loop]
  decide

set_option maxRecDepth 10000 in
theorem cnt32_6_20 :
    cnt (fun t : ℕ × ℕ × ℕ × ℕ × ℕ => delta32 t.1 t.2.1 t.2.2.1 t.2.2.2.1 t.2.2.2.2)
      (tuples32 6) (-2, 0) = 2275 := by
  rw [cnt32_eq_loop]
  decide

theorem cnt32_6_11 :
    cnt (fun t : ℕ × ℕ × ℕ × ℕ × ℕ => delta32 t.1 t.2.1 t.2.2.1 t.2.2.2.1 t.2.2.2.2)
      (tuples32 6) (-1, -1) = 2611 := by
  have hsum := sum_cnt_eq_length
    (fun t : ℕ × ℕ × ℕ × ℕ × ℕ => delta32 t.1 t.2.1 t.2.2.1 t.2.2.2.1 t.2.2.2.2)
    (tuples32 6) transitions transitions_nodup
    (fun x _ => delta32_mem x.1 x.2.1 x.2.2.1 x.2.2.2.1 x.2.2.2.2)
  rw [tuples32_length] at hsum
  simp only [transitions, List.map_cons, List.map_nil, List.sum_cons, List.sum_nil] at hsum
  have h1 := cnt32_6_02
  have h2 := cnt32_6_20
  have h3 := cnt32_zero 6 (-1, 0) (by decide)
  have h4 := cnt32_zero 6 (0, -1) (by decide)
  omega

end DPRisk

namespace DPRisk

theorem prob_row0_6 : (create_prob_table 6).getD 0 [] =
    [0, 0, 21/36, 15/36, 0] := by
  have h3 := cnt11_zero 6 (-2, 0) (by decide)
  have h4 := cnt11_zero 6 (-1, -1) (by decide)
  have h5 := cnt11_zero 6 (0, -2) (by decide)
  simp only [create_prob_table, dicetuples, List.map_cons, List.map_nil, List.getD_cons_zero]
  norm_num [calc_transitions, transitions, tuples11_length, cnt11_6_01, cnt11_6_10, h3, h4, h5]

theorem prob_row1_6 : (create_prob_table 6).getD 1 [] =
    [0, 0, 91/216, 125/216, 0] := by
  have h3 := cnt21_zero 6 (-2, 0) (by decide)
  have h4 := cnt21_zero 6 (-1, -1) (by decide)
  have h5 := cnt21_zero 6 (0, -2) (by decide)
  simp only [create_prob_table, dicetuples, List.map_cons, List.map_nil, List.getD_cons_zero,
    List.getD_cons_succ]
  norm_num [calc_transitions, transitions, tuples21_length, cnt21_6_01, cnt21_6_10, h3, h4, h5]

theorem prob_row2_6 : (create_prob_table 6).getD 2 [] =
    [0, 0, 441/1296, 855/1296, 0] := by
  have h3 := cnt31_zero 6 (-2, 0) (by decide)
  have h4 := cnt31_zero 6 (-1, -1) (by decide)
  have h5 := cnt31_zero 6 (0, -2) (by decide)
  simp only [create_prob_table, dicetuples, List.map_cons, List.map_nil, List.getD_cons_zero,
    List.getD_cons_succ]
  norm_num [calc_transitions, transitions, tuples31_length, cnt31_6_01, cnt31_6_10, h3, h4, h5]

theorem prob_row3_6 : (create_prob_table 6).getD 3 [] =
    [0, 0, 161/216, 55/216, 0] := by
  have h3 := cnt12_zero 6 (-2, 0) (by decide)
  have h4 := cnt12_zero 6 (-1, -1) (by decide)
  have h5 := cnt12_zero 6 (0, -2) (by decide)
  simp only [create_prob_table, dicetuples, List.map_cons, List.map_nil, List.getD_cons_zero,
    List.getD_cons_succ]
  norm_num [calc_transitions, transitions, tuples12_length, cnt12_6_01, cnt12_6_10, h3, h4, h5]

theorem prob_row4_6 : (create_prob_table 6).getD 4 [] =
    [581/1296, 420/1296, 0, 0, 295/1296] := by
  have h3 := cnt22_zero 6 (-1, 0) (by decide)
  have h4 := cnt22_zero 6 (0, -1) (by decide)
  simp only [create_prob_table, dicetuples, List.map_cons, List.map_nil, List.getD_cons_zero,
    List.getD_cons_succ]
  norm_num [calc_transitions, transitions, tuples22_length, cnt22_6_02, cnt22_6_20, cnt22_6_11,
    h3, h4]

theorem prob_row5_6 : (create_prob_table 6).getD 5 [] =
    [2275/7776, 2611/7776, 0, 0, 2890/7776] := by
  have h3 := cnt32_zero 6 (-1, 0) (by decide)
  have h4 := cnt32_zero 6 (0, -1) (by decide)
  simp only [create_prob_table, dicetuples, List.map_cons, List.map_nil, List.getD_cons_zero,
    List.getD_cons_succ]
  norm_num [calc_transitions, transitions, tuples32_length, cnt32_6_02, cnt32_6_20, cnt32_6_11,
    h3, h4]

end DPRisk

namespace DPRisk

/-- Descending insertion used to model `std::sort(..., std::greater<int>())`
(dprisk.cpp lines 116-117): inserts `x` into a descending-sorted list. -/
def insertDesc (x : ℕ) : List ℕ → List ℕ
  | [] => [x]
  | y :: ys => if x ≥ y then x :: y :: ys else y :: insertDesc x ys

def sortDesc : List ℕ → List ℕ
  | [] => []
  | x :: xs => insertDesc x (sortDesc xs)

def compare_loop (as ds : List ℕ) (ad : ℤ × ℤ) : ℕ → ℤ × ℤ
  | 0 => ad
  | n + 1 =>
    let r := compare_loop as ds ad n
    if as.getD n 0 > ds.getD n 0 then (r.1, r.2 - 1) else (r.1 - 1, r.2)

def num_compared (na nd : ℕ) : ℕ := if na > nd then nd else na

def round_outcome (adice ddice : List ℕ) : ℤ × ℤ :=
  compare_loop (sortDesc adice) (sortDesc ddice) (0, 0)
    (num_compared adice.length ddice.length)



theorem ite_gt_max (a b : ℕ) : (if a > b then a else b) = max a b := by
  split_ifs <;> omega

theorem ite_lt_min (a b : ℕ) : (if a < b then a else b) = min a b := by
  split_ifs <;> omega

theorem sortDesc_two_form (p q : ℕ) :
    (sortDesc [p, q]).getD 0 0 = max p q ∧ (sortDesc [p, q]).getD 1 0 = min p q := by
  have h0 : sortDesc [p, q] = insertDesc p [q] := rfl
  have h1 : insertDesc p [q] = if p ≥ q then [p, q] else [q, p] := by simp [insertDesc]
  rcases le_or_lt q p with h | h
  · rw [h0, h1, if_pos (by omega)]
    exact ⟨by simp [List.getD]; omega, by simp [List.getD]; omega⟩
  · rw [h0, h1, if_neg (by omega)]
    exact ⟨by simp [List.getD]; omega, by simp [List.getD]; omega⟩

theorem sortDesc_two_0 (p q : ℕ) : (sortDesc [p, q]).getD 0 0 = max p q :=
  (sortDesc_two_form p q).1

theorem sortDesc_two_1 (p q : ℕ) : (sortDesc [p, q]).getD 1 0 = min p q :=
  (sortDesc_two_form p q).2

theorem sortDesc_three_form (i j k : ℕ) :
    (sortDesc [i, j, k]).getD 0 0 = max k (max i j) ∧
    (sortDesc [i, j, k]).getD 1 0 = (sort_three i j k).2.1 := by
  have hmid := sort_three_spec i j k
  have h0 : sortDesc [i, j, k] = insertDesc i (insertDesc j [k]) := rfl
  have hjk : insertDesc j [k] = if j ≥ k then [j, k] else [k, j] := by simp [insertDesc]
  rcases le_or_lt k j with hkj | hkj
  · rw [h0, hjk, if_pos (by omega)]
    have h2 : insertDesc i [j, k] = if i ≥ j then [i, j, k] else j :: insertDesc i [k] := by
      simp [insertDesc]
    rcases le_or_lt j i with hji | hji
    · rw [h2, if_pos (by omega)]
      exact ⟨by simp [List.getD]; omega, by simp [List.getD]; omega⟩
    · rw [h2, if_neg (by omega)]
      have h3 : insertDesc i [k] = if i ≥ k then [i, k] else [k, i] := by simp [insertDesc]
      rcases le_or_lt k i with hki | hki
      · rw [h3, if_pos (by omega)]
        exact ⟨by simp [List.getD]; omega, by simp [List.getD]; omega⟩
      · rw [h3, if_neg (by omega)]
        exact ⟨by simp [List.getD]; omega, by simp [List.getD]; omega⟩
  · rw [h0, hjk, if_neg (by omega)]
    have h2 : insertDesc i [k, j] = if i ≥ k then [i, k, j] else k :: insertDesc i [j] := by
      simp [insertDesc]
    rcases le_or_lt k i with hki | hki
    · rw [h2, if_pos (by omega)]
      exact ⟨by simp [List.getD]; omega, by simp [List.getD]; omega⟩
    · rw [h2, if_neg (by omega)]
      have h3 : insertDesc i [j] = if i ≥ j then [i, j] else [j, i] := by simp [insertDesc]
      rcases le_or_lt j i with hji | hji
      · rw [h3, if_pos (by omega)]
        exact ⟨by simp [List.getD]; omega, by simp [List.getD]; omega⟩
      · rw [h3, if_neg (by omega)]
        exact ⟨by simp [List.getD]; omega, by simp [List.getD]; omega⟩

theorem sortDesc_three_0 (i j k : ℕ) :
    (sortDesc [i, j, k]).getD 0 0 = max k (max i j) :=
  (sortDesc_three_form i j k).1

theorem sortDesc_three_1 (i j k : ℕ) :
    (sortDesc [i, j, k]).getD 1 0 = (sort_three i j k).2.1 :=
  (sortDesc_three_form i j k).2

theorem compare_loop_one (as ds : List ℕ) (ad : ℤ × ℤ) :
    compare_loop as ds ad 1 =
      if as.getD 0 0 > ds.getD 0 0 then (ad.1, ad.2 - 1) else (ad.1 - 1, ad.2) := rfl

theorem compare_loop_two (as ds : List ℕ) (ad : ℤ × ℤ) :
    compare_loop as ds ad 2 =
      (fun r : ℤ × ℤ => if as.getD 1 0 > ds.getD 1 0 then (r.1, r.2 - 1) else (r.1 - 1, r.2))
        (if as.getD 0 0 > ds.getD 0 0 then (ad.1, ad.2 - 1) else (ad.1 - 1, ad.2)) := rfl

theorem round_outcome_11 (i p : ℕ) : delta11 i p = round_outcome [i] [p] := by
  rw [round_outcome, show num_compared [i].length [p].length = 1 from rfl, compare_loop_one]
  simp only [delta11, sortDesc, insertDesc, List.getD]
  split_ifs <;> simp_all [Prod.ext_iff] <;> omega

theorem round_outcome_21 (i j p : ℕ) : delta21 i j p = round_outcome [i, j] [p] := by
  rw [round_outcome, show num_compared [i, j].length [p].length = 1 from rfl, compare_loop_one]
  rw [show sortDesc [p] = [p] from rfl]
  rw [show ([p].getD 0 0) = p from rfl, sortDesc_two_0]
  simp only [delta21, ite_gt_max]
  split_ifs <;> simp_all [Prod.ext_iff] <;> omega

theorem round_outcome_31 (i j k p : ℕ) : delta31 i j k p = round_outcome [i, j, k] [p] := by
  rw [round_outcome, show num_compared [i, j, k].length [p].length = 1 from rfl, compare_loop_one]
  rw [show sortDesc [p] = [p] from rfl]
  rw [show ([p].getD 0 0) = p from rfl, sortDesc_three_0]
  simp only [delta31, ite_gt_max]
  split_ifs <;> simp_all [Prod.ext_iff] <;> omega

theorem round_outcome_12 (i p q : ℕ) : delta12 i p q = round_outcome [i] [p, q] := by
  rw [round_outcome, show num_compared [i].length [p, q].length = 1 from rfl, compare_loop_one]
  rw [show sortDesc [i] = [i] from rfl]
  rw [show ([i].getD 0 0) = i from rfl, sortDesc_two_0]
  simp only [delta12, ite_gt_max]
  split_ifs <;> simp_all [Prod.ext_iff] <;> omega

theorem round_outcome_22 (i j p q : ℕ) : delta22 i j p q = round_outcome [i, j] [p, q] := by
  rw [round_outcome, show num_compared [i, j].length [p, q].length = 2 from rfl,
    compare_loop_two, sortDesc_two_0, sortDesc_two_1, sortDesc_two_0, sortDesc_two_1]
  simp only [delta22, ite_gt_max, ite_lt_min]
  set M := max i j
  set m := min i j
  set P := max p q
  set Q := min p q
  split_ifs <;> simp_all [Prod.ext_iff] <;> omega

theorem round_outcome_32 (i j k p q : ℕ) :
    delta32 i j k p q = round_outcome [i, j, k] [p, q] := by
  rw [round_outcome, show num_compared [i, j, k].length [p, q].length = 2 from rfl,
    compare_loop_two, sortDesc_three_0, sortDesc_three_1, sortDesc_two_0, sortDesc_two_1]
  simp only [delta32, ite_gt_max, ite_lt_min]
  set M := max k (max i j)
  set m := (sort_three i j k).2.1
  set P := max p q
  set Q := min p q
  split_ifs <;> simp_all [Prod.ext_iff] <;> omega


end DPRisk

namespace DPRisk

theorem list_getD_nonneg : ∀ (l : List ℚ) (n : ℕ), (∀ x ∈ l, 0 ≤ x) → 0 ≤ l.getD n 0
  | [], n, _ => by simp [List.getD]
  | x :: xs, 0, h => by simpa using h x (by simp)
  | x :: xs, n + 1, h => by
    simpa using list_getD_nonneg xs n fun y hy => h y (by simp [hy])

theorem create_prob_table_nonneg (S : ℕ) :
    ∀ r ∈ create_prob_table S, ∀ x ∈ r, 0 ≤ x := by
  intro r hr x hx
  unfold create_prob_table at hr
  obtain ⟨t, _, rfl⟩ := List.mem_map.mp hr
  dsimp only at hx
  obtain ⟨c, _, rfl⟩ := List.mem_map.mp hx
  positivity

theorem prob_nonneg (S : ℕ) (q i : ℕ) : 0 ≤ prob S q i := by
  rw [prob]
  apply list_getD_nonneg
  intro x hx
  rw [List.getD_eq_getElem?_getD] at hx
  rcases lt_or_ge q (create_prob_table S).length with hq | hq
  · rw [List.getElem?_eq_getElem hq] at hx
    simp only [Option.getD_some] at hx
    exact create_prob_table_nonneg S _ (List.getElem_mem hq) x hx
  · rw [List.getElem?_eq_none hq] at hx
    simp at hx

theorem prob6_row0 : prob 6 0 0 = 0 ∧ prob 6 0 1 = 0 ∧ prob 6 0 2 = 21/36 ∧
    prob 6 0 3 = 15/36 ∧ prob 6 0 4 = 0 := by
  have h : ∀ j : ℕ, prob 6 0 j = ([0, 0, 21/36, 15/36, 0] : List ℚ).getD j 0 := fun j => by
    rw [prob, prob_row0_6]
  exact ⟨(h 0).trans rfl, (h 1).trans rfl, (h 2).trans rfl, (h 3).trans rfl,
    (h 4).trans rfl⟩

theorem prob6_row1 : prob 6 1 0 = 0 ∧ prob 6 1 1 = 0 ∧ prob 6 1 2 = 91/216 ∧
    prob 6 1 3 = 125/216 ∧ prob 6 1 4 = 0 := by
  have h : ∀ j : ℕ, prob 6 1 j = ([0, 0, 91/216, 125/216, 0] : List ℚ).getD j 0 := fun j => by
    rw [prob, prob_row1_6]
  exact ⟨(h 0).trans rfl, (h 1).trans rfl, (h 2).trans rfl, (h 3).trans rfl,
    (h 4).trans rfl⟩

theorem prob6_row2 : prob 6 2 0 = 0 ∧ prob 6 2 1 = 0 ∧ prob 6 2 2 = 441/1296 ∧
    prob 6 2 3 = 855/1296 ∧ prob 6 2 4 = 0 := by
  have h : ∀ j : ℕ, prob 6 2 j = ([0, 0, 441/1296, 855/1296, 0] : List ℚ).getD j 0 := fun j => by
    rw [prob, prob_row2_6]
  exact ⟨(h 0).trans rfl, (h 1).trans rfl, (h 2).trans rfl, (h 3).trans rfl,
    (h 4).trans rfl⟩

theorem prob6_row3 : prob 6 3 0 = 0 ∧ prob 6 3 1 = 0 ∧ prob 6 3 2 = 161/216 ∧
    prob 6 3 3 = 55/216 ∧ prob 6 3 4 = 0 := by
  have h : ∀ j : ℕ, prob 6 3 j = ([0, 0, 161/216, 55/216, 0] : List ℚ).getD j 0 := fun j => by
    rw [prob, prob_row3_6]
  exact ⟨(h 0).trans rfl, (h 1).trans rfl, (h 2).trans rfl, (h 3).trans rfl,
    (h 4).trans rfl⟩

theorem prob6_row4 : prob 6 4 0 = 581/1296 ∧ prob 6 4 1 = 420/1296 ∧ prob 6 4 2 = 0 ∧
    prob 6 4 3 = 0 ∧ prob 6 4 4 = 295/1296 := by
  have h : ∀ j : ℕ, prob 6 4 j = ([581/1296, 420/1296, 0, 0, 295/1296] : List ℚ).getD j 0 := fun j => by
    rw [prob, prob_row4_6]
  exact ⟨(h 0).trans rfl, (h 1).trans rfl, (h 2).trans rfl, (h 3).trans rfl,
    (h 4).trans rfl⟩

theorem prob6_row5 : prob 6 5 0 = 2275/7776 ∧ prob 6 5 1 = 2611/7776 ∧ prob 6 5 2 = 0 ∧
    prob 6 5 3 = 0 ∧ prob 6 5 4 = 2890/7776 := by
  have h : ∀ j : ℕ, prob 6 5 j = ([2275/7776, 2611/7776, 0, 0, 2890/7776] : List ℚ).getD j 0 := fun j => by
    rw [prob, prob_row5_6]
  exact ⟨(h 0).trans rfl, (h 1).trans rfl, (h 2).trans rfl, (h 3).trans rfl,
    (h 4).trans rfl⟩

/-- The win-probability recurrence for an arbitrary transition-probability
table `pr` (row index, transition index), by well-founded recursion on the
total number of remaining units. -/
def gsol_rec (pr : ℕ → ℕ → ℚ) (a d : ℤ) : ℚ :=
  if a ≤ 1 then 0
  else if d ≤ 0 then 1
  else
    let q := dice_index (attacker_dice a) (defender_dice d)
    (if pr q 0 = 0 then 0 else pr q 0 * gsol_rec pr (a - 2) d) +
    (if pr q 1 = 0 then 0 else pr q 1 * gsol_rec pr (a - 1) (d - 1)) +
    (if pr q 2 = 0 then 0 else pr q 2 * gsol_rec pr (a - 1) d) +
    (if pr q 3 = 0 then 0 else pr q 3 * gsol_rec pr a (d - 1)) +
    (if pr q 4 = 0 then 0 else pr q 4 * gsol_rec pr a (d - 2))
termination_by (a + d).toNat
decreasing_by all_goals omega

/-- The solution of the program recurrence with the table for `S`-faced dice. -/
def gsol (S : ℕ) (a d : ℤ) : ℚ := gsol_rec (prob S) a d

theorem gsol_fold (S : ℕ) (a d : ℤ) : gsol_rec (prob S) a d = gsol S a d := rfl

theorem attacker_dice_2 : attacker_dice 2 = 1 := by decide
theorem attacker_dice_3 : attacker_dice 3 = 2 := by decide
theorem attacker_dice_big (a : ℤ) (h : 4 ≤ a) : attacker_dice a = 3 := by
  simp only [attacker_dice]
  split_ifs <;> omega

theorem defender_dice_1 : defender_dice 1 = 1 := by decide
theorem defender_dice_big (d : ℤ) (h : 2 ≤ d) : defender_dice d = 2 := by
  simp only [defender_dice]
  split_ifs <;> omega

theorem gsol_bdy0 (S : ℕ) (a d : ℤ) (h : a ≤ 1) : gsol S a d = 0 := by
  rw [gsol, gsol_rec]
  simp only [gsol_fold]
  simp [h]

theorem gsol_bdy1 (S : ℕ) (a d : ℤ) (h : 2 ≤ a) (hd : d ≤ 0) : gsol S a d = 1 := by
  rw [gsol, gsol_rec]
  simp only [gsol_fold]
  rw [if_neg (by omega), if_pos hd]

theorem gsol6_21 : gsol 6 2 1 = 5/12 := by
  rw [gsol, gsol_rec]
  simp only [gsol_fold]
  norm_num [attacker_dice_2, defender_dice_1]
  rw [show dice_index 1 1 = 0 from by decide]
  norm_num [prob6_row0.1, prob6_row0.2.1, prob6_row0.2.2.1, prob6_row0.2.2.2.1,
    prob6_row0.2.2.2.2, gsol_bdy0 6 1 1 (by omega), gsol_bdy1 6 2 0 (by omega) (by omega)]

theorem gsol6_row2 (d : ℤ) (hd : 2 ≤ d) : gsol 6 2 d = 55/216 * gsol 6 2 (d - 1) := by
  rw [gsol, gsol_rec]
  simp only [gsol_fold]
  rw [if_neg (by omega), if_neg (by omega), attacker_dice_2, defender_dice_big d hd]
  rw [show dice_index 1 2 = 3 from by decide]
  norm_num [prob6_row3.1, prob6_row3.2.1, prob6_row3.2.2.1, prob6_row3.2.2.2.1,
    prob6_row3.2.2.2.2, gsol_bdy0 6 1 d (by omega)]

theorem gsol6_31 : gsol 6 3 1 = 1955/2592 := by
  rw [gsol, gsol_rec]
  simp only [gsol_fold]
  rw [if_neg (by omega), if_neg (by omega), attacker_dice_3, defender_dice_1]
  rw [show dice_index 2 1 = 1 from by decide]
  norm_num [prob6_row1.1, prob6_row1.2.1, prob6_row1.2.2.1, prob6_row1.2.2.2.1,
    prob6_row1.2.2.2.2, gsol6_21, gsol_bdy1 6 3 0 (by omega) (by omega)]

theorem gsol6_row_d1 (a : ℤ) (ha : 4 ≤ a) :
    gsol 6 a 1 = 855/1296 + 441/1296 * gsol 6 (a - 1) 1 := by
  rw [gsol, gsol_rec]
  simp only [gsol_fold]
  rw [if_neg (by omega), if_neg (by omega), attacker_dice_big a ha, defender_dice_1]
  rw [show dice_index 3 1 = 2 from by decide]
  norm_num [prob6_row2.1, prob6_row2.2.1, prob6_row2.2.2.1, prob6_row2.2.2.2.1,
    prob6_row2.2.2.2.2, gsol_bdy1 6 a 0 (by omega) (by omega)]
  try ring

theorem gsol6_row3 (d : ℤ) (hd : 2 ≤ d) :
    gsol 6 3 d = 420/1296 * gsol 6 2 (d - 1) + 295/1296 * gsol 6 3 (d - 2) := by
  rw [gsol, gsol_rec]
  simp only [gsol_fold]
  rw [if_neg (by omega), if_neg (by omega), attacker_dice_3, defender_dice_big d hd]
  rw [show dice_index 2 2 = 4 from by decide]
  norm_num [prob6_row4.1, prob6_row4.2.1, prob6_row4.2.2.1, prob6_row4.2.2.2.1,
    prob6_row4.2.2.2.2, gsol_bdy0 6 1 d (by omega)]
  try ring

theorem gsol6_big (a d : ℤ) (ha : 4 ≤ a) (hd : 2 ≤ d) :
    gsol 6 a d = 2275/7776 * gsol 6 (a - 2) d + 2611/7776 * gsol 6 (a - 1) (d - 1) +
      2890/7776 * gsol 6 a (d - 2) := by
  rw [gsol, gsol_rec]
  simp only [gsol_fold]
  rw [if_neg (by omega), if_neg (by omega), attacker_dice_big a ha, defender_dice_big d hd]
  rw [show dice_index 3 2 = 5 from by decide]
  norm_num [prob6_row5.1, prob6_row5.2.1, prob6_row5.2.2.1, prob6_row5.2.2.2.1,
    prob6_row5.2.2.2.2]
  try ring

theorem gsol6_32 : gsol 6 3 2 = 235/648 := by
  rw [gsol6_row3 2 (by omega)]
  norm_num [gsol6_21, gsol_bdy1 6 3 0 (by omega) (by omega)]

theorem gsol_nonneg (S : ℕ) : ∀ a d : ℤ, 0 ≤ gsol S a d := by
  have H : ∀ n : ℕ, ∀ a d : ℤ, (a + d).toNat ≤ n → 0 ≤ gsol S a d := by
    intro n
    induction n using Nat.strong_induction_on with
    | _ n ih =>
      intro a d hn
      rcases le_or_lt a 1 with h1 | h1
      · rw [gsol_bdy0 S a d h1]
      · rcases le_or_lt d 0 with h2 | h2
        · rw [gsol_bdy1 S a d (by omega) h2]
          norm_num
        · rw [gsol, gsol_rec, if_neg (by omega), if_neg (by omega)]
          simp only [gsol_fold]
          have hterm : ∀ (i : ℕ) (a' d' : ℤ), (a' + d').toNat < n →
              (0 : ℚ) ≤ (if prob S (dice_index (attacker_dice a) (defender_dice d)) i = 0 then 0
                else prob S (dice_index (attacker_dice a) (defender_dice d)) i * gsol S a' d') := by
            intro i a' d' hm
            split_ifs with hp
            · exact le_refl 0
            · exact mul_nonneg (prob_nonneg S _ i) (ih ((a' + d').toNat) hm a' d' le_rfl)
          have h3 : 3 ≤ a + d := by omega
          have hn3 : 3 ≤ n := by omega
          have t0 := hterm 0 (a - 2) d (by omega)
          have t1 := hterm 1 (a - 1) (d - 1) (by omega)
          have t2 := hterm 2 (a - 1) d (by omega)
          have t3 := hterm 3 a (d - 1) (by omega)
          have t4 := hterm 4 a (d - 2) (by omega)
          linarith
  intro a d
  exact H (a + d).toNat a d le_rfl

theorem gsol6_le_one : ∀ a d : ℤ, gsol 6 a d ≤ 1 := by
  have NN := gsol_nonneg 6
  have H : ∀ n : ℕ, ∀ a d : ℤ, (a + d).toNat ≤ n → gsol 6 a d ≤ 1 := by
    intro n
    induction n using Nat.strong_induction_on with
    | _ n ih =>
      intro a d hn
      have IH : ∀ a' d' : ℤ, (a' + d').toNat < n → gsol 6 a' d' ≤ 1 :=
        fun a' d' hm => ih ((a' + d').toNat) hm a' d' le_rfl
      rcases le_or_lt a 1 with ha | ha
      · rw [gsol_bdy0 6 a d ha]; norm_num
      · rcases le_or_lt d 0 with hd | hd
        · rw [gsol_bdy1 6 a d (by omega) hd]
        · have h3 : 3 ≤ a + d := by omega
          have hn3 : 3 ≤ n := by omega
          rcases eq_or_lt_of_le (show (2:ℤ) ≤ a by omega) with ha2 | ha3
          · rcases eq_or_lt_of_le (show (1:ℤ) ≤ d by omega) with hd1 | hd2
            · rw [← ha2, ← hd1, gsol6_21]; norm_num
            · rw [← ha2, gsol6_row2 d (by omega)]
              have := IH 2 (d - 1) (by omega)
              nlinarith [NN 2 (d - 1)]
          · rcases eq_or_lt_of_le (show (3:ℤ) ≤ a by omega) with ha3e | ha4
            · rcases eq_or_lt_of_le (show (1:ℤ) ≤ d by omega) with hd1 | hd2
              · rw [← ha3e, ← hd1, gsol6_31]; norm_num
              · rw [← ha3e, gsol6_row3 d (by omega)]
                have i1 := IH 2 (d - 1) (by omega)
                have i2 := IH 3 (d - 2) (by omega)
                nlinarith [NN 2 (d - 1), NN 3 (d - 2)]
            · rcases eq_or_lt_of_le (show (1:ℤ) ≤ d by omega) with hd1 | hd2
              · rw [← hd1, gsol6_row_d1 a (by omega)]
                have i1 := IH (a - 1) 1 (by omega)
                nlinarith [NN (a - 1) 1]
              · rw [gsol6_big a d (by omega) (by omega)]
                have i1 := IH (a - 2) d (by omega)
                have i2 := IH (a - 1) (d - 1) (by omega)
                have i3 := IH a (d - 2) (by omega)
                nlinarith [NN (a - 2) d, NN (a - 1) (d - 1), NN a (d - 2)]
  intro a d
  exact H (a + d).toNat a d le_rfl

theorem gsol6_mono_aux : ∀ n : ℕ, ∀ a d : ℤ, (a + d).toNat ≤ n →
    gsol 6 a d ≤ gsol 6 (a + 1) d ∧ gsol 6 a (d + 1) ≤ gsol 6 a d := by
  have NN := gsol_nonneg 6
  have LE1 := gsol6_le_one
  intro n
  induction n using Nat.strong_induction_on with
  | _ n ih =>
    intro a d hn
    have IH : ∀ a' d' : ℤ, (a' + d').toNat < n →
        gsol 6 a' d' ≤ gsol 6 (a' + 1) d' ∧ gsol 6 a' (d' + 1) ≤ gsol 6 a' d' :=
      fun a' d' hm => ih ((a' + d').toNat) hm a' d' le_rfl
    constructor
    · -- monotone in a
      rcases le_or_lt a 1 with ha | ha
      · rw [gsol_bdy0 6 a d ha]
        exact NN _ _
      · rcases le_or_lt d 0 with hd | hd
        · rw [gsol_bdy1 6 a d (by omega) hd, gsol_bdy1 6 (a + 1) d (by omega) hd]
        · have hmeas : 3 ≤ a + d := by omega
          have hn3 : 3 ≤ n := by omega
          rcases eq_or_lt_of_le (show (2:ℤ) ≤ a by omega) with ha2 | ha3
          · rcases eq_or_lt_of_le (show (1:ℤ) ≤ d by omega) with hd1 | hd2
            · rw [← ha2, ← hd1]
              rw [show (2:ℤ) + 1 = 3 by norm_num, gsol6_21, gsol6_31]
              norm_num
            · rw [← ha2, show (2:ℤ) + 1 = 3 by norm_num, gsol6_row2 d (by omega),
                gsol6_row3 d (by omega)]
              nlinarith [NN 2 (d - 1), NN 3 (d - 2)]
          · rcases eq_or_lt_of_le (show (3:ℤ) ≤ a by omega) with ha3e | ha4
            · rcases eq_or_lt_of_le (show (1:ℤ) ≤ d by omega) with hd1 | hd2
              · rw [← ha3e, ← hd1, show (3:ℤ) + 1 = 4 by norm_num, gsol6_31,
                  gsol6_row_d1 4 (by omega), show (4:ℤ) - 1 = 3 by norm_num, gsol6_31]
                norm_num
              · rw [← ha3e, show (3:ℤ) + 1 = 4 by norm_num, gsol6_row3 d (by omega),
                  gsol6_big 4 d (by omega) (by omega), show (4:ℤ) - 2 = 2 by norm_num,
                  show (4:ℤ) - 1 = 3 by norm_num]
                have i1 : gsol 6 2 (d - 1) ≤ gsol 6 3 (d - 1) := by
                  have h := (IH 2 (d - 1) (by omega)).1
                  norm_num at h
                  exact h
                have i2 : gsol 6 3 (d - 2) ≤ gsol 6 4 (d - 2) := by
                  have h := (IH 3 (d - 2) (by omega)).1
                  norm_num at h
                  exact h
                nlinarith [NN 2 d, NN 2 (d - 1), NN 3 (d - 1), NN 4 (d - 2), NN 3 (d - 2)]
            · rcases eq_or_lt_of_le (show (1:ℤ) ≤ d by omega) with hd1 | hd2
              · rw [← hd1, gsol6_row_d1 a (by omega), gsol6_row_d1 (a + 1) (by omega)]
                have he : a + 1 - 1 = a := by ring
                rw [he]
                have i1 : gsol 6 (a - 1) 1 ≤ gsol 6 a 1 := by
                  have h := (IH (a - 1) 1 (by omega)).1
                  have he2 : a - 1 + 1 = a := by ring
                  rw [he2] at h
                  exact h
                nlinarith [LE1 a 1, NN (a - 1) 1]
              · rw [gsol6_big a d (by omega) (by omega),
                  gsol6_big (a + 1) d (by omega) (by omega)]
                have e1 : a + 1 - 2 = a - 1 := by ring
                have e2 : a + 1 - 1 = a := by ring
                rw [e1, e2]
                have i1 : gsol 6 (a - 2) d ≤ gsol 6 (a - 1) d := by
                  have h := (IH (a - 2) d (by omega)).1
                  have he2 : a - 2 + 1 = a - 1 := by ring
                  rw [he2] at h
                  exact h
                have i2 : gsol 6 (a - 1) (d - 1) ≤ gsol 6 a (d - 1) := by
                  have h := (IH (a - 1) (d - 1) (by omega)).1
                  have he2 : a - 1 + 1 = a := by ring
                  rw [he2] at h
                  exact h
                have i3 : gsol 6 a (d - 2) ≤ gsol 6 (a + 1) (d - 2) := by
                  exact (IH a (d - 2) (by omega)).1
                nlinarith
    · -- antitone in d
      rcases le_or_lt a 1 with ha | ha
      · rw [gsol_bdy0 6 a d ha, gsol_bdy0 6 a (d + 1) ha]
      · rcases le_or_lt d 0 with hd | hd
        · rcases le_or_lt (d + 1) 0 with hd1 | hd1
          · rw [gsol_bdy1 6 a d (by omega) hd, gsol_bdy1 6 a (d + 1) (by omega) hd1]
          · have hd0 : d = 0 := by omega
            rw [hd0, gsol_bdy1 6 a 0 (by omega) (by omega)]
            norm_num
            exact LE1 a 1
        · have hmeas : 3 ≤ a + d := by omega
          have hn3 : 3 ≤ n := by omega
          rcases eq_or_lt_of_le (show (2:ℤ) ≤ a by omega) with ha2 | ha3
          · rw [← ha2, gsol6_row2 (d + 1) (by omega)]
            have he : d + 1 - 1 = d := by ring
            rw [he]
            nlinarith [NN 2 d, LE1 2 d]
          · rcases eq_or_lt_of_le (show (3:ℤ) ≤ a by omega) with ha3e | ha4
            · rcases eq_or_lt_of_le (show (1:ℤ) ≤ d by omega) with hd1 | hd2
              · rw [← ha3e, ← hd1]
                rw [show (1:ℤ) + 1 = 2 by norm_num, gsol6_32, gsol6_31]
                norm_num
              · rw [← ha3e, gsol6_row3 (d + 1) (by omega), gsol6_row3 d (by omega)]
                have e1 : d + 1 - 1 = d := by ring
                have e2 : d + 1 - 2 = d - 1 := by ring
                rw [e1, e2]
                have i1 : gsol 6 2 d ≤ gsol 6 2 (d - 1) := by
                  have h := (IH 2 (d - 1) (by omega)).2
                  have he2 : d - 1 + 1 = d := by ring
                  rw [he2] at h
                  exact h
                have i2 : gsol 6 3 (d - 1) ≤ gsol 6 3 (d - 2) := by
                  have h := (IH 3 (d - 2) (by omega)).2
                  have he2 : d - 2 + 1 = d - 1 := by ring
                  rw [he2] at h
                  exact h
                nlinarith
            · rcases eq_or_lt_of_le (show (1:ℤ) ≤ d by omega) with hd1 | hd2
              · rw [← hd1]
                rw [show (1:ℤ) + 1 = 2 by norm_num, gsol6_big a 2 (by omega) (by omega),
                  gsol6_row_d1 a (by omega)]
                norm_num [gsol_bdy1 6 a 0 (by omega) (by omega)]
                have i1 : gsol 6 (a - 2) 2 ≤ gsol 6 (a - 2) 1 := by
                  have h := (IH (a - 2) 1 (by omega)).2
                  norm_num at h
                  exact h
                have i2 : gsol 6 (a - 2) 1 ≤ gsol 6 (a - 1) 1 := by
                  have h := (IH (a - 2) 1 (by omega)).1
                  have he2 : a - 2 + 1 = a - 1 := by ring
                  rw [he2] at h
                  exact h
                nlinarith [LE1 (a - 1) 1, NN (a - 2) 2, NN (a - 1) 1]
              · rw [gsol6_big a (d + 1) (by omega) (by omega),
                  gsol6_big a d (by omega) (by omega)]
                have e1 : d + 1 - 1 = d := by ring
                have e2 : d + 1 - 2 = d - 1 := by ring
                rw [e1, e2]
                have i1 : gsol 6 (a - 2) (d + 1) ≤ gsol 6 (a - 2) d := by
                  exact (IH (a - 2) d (by omega)).2
                have i2 : gsol 6 (a - 1) d ≤ gsol 6 (a - 1) (d - 1) := by
                  have h := (IH (a - 1) (d - 1) (by omega)).2
                  have he2 : d - 1 + 1 = d := by ring
                  rw [he2] at h
                  exact h
                have i3 : gsol 6 a (d - 1) ≤ gsol 6 a (d - 2) := by
                  have h := (IH a (d - 2) (by omega)).2
                  have he2 : d - 2 + 1 = d - 1 := by ring
                  rw [he2] at h
                  exact h
                nlinarith
  
theorem gsol6_mono_a (a d : ℤ) : gsol 6 a d ≤ gsol 6 (a + 1) d :=
  (gsol6_mono_aux (a + d).toNat a d le_rfl).1

theorem gsol6_mono_d (a d : ℤ) : gsol 6 a (d + 1) ≤ gsol 6 a d :=
  (gsol6_mono_aux (a + d).toNat a d le_rfl).2

end DPRisk

namespace DPRisk

/-- Embeds `linear_index` (dprisk.cpp lines 337-339): `(1 + A) * d + a`.
The `D` bound is passed but unused, exactly as in the source. -/
def linear_index (a A d D : ℤ) : ℤ := (1 + A) * d + a

/-- The allocation size `sz = (1 + A) * (1 + D)` of the grid vector (line 437). -/
def grid_size (A D : ℤ) : ℤ := (1 + A) * (1 + D)

/-- Grid contents after the sentinel fill and the boundary assignments of
`main` (lines 436-457): every allocated entry holds the sentinel `-1`
(`unused_value`), except rows `a = 0, 1` (set to 0 for every `d`, including
the cell `(1,0)`) and the column `d = 0` for `a ≥ 2` (set to 1). Entries
outside the allocated vector do not exist in the C++ program; the model maps
them to the junk value 0 and the proofs show they are never read. -/
def start_grid (A D : ℤ) : ℤ → ℚ := fun n =>
  if 0 ≤ n ∧ n < grid_size A D then
    (if n % (1 + A) ≤ 1 then 0 else if n / (1 + A) = 0 then 1 else -1)
  else 0

/-- The transition loop of `update_elements` (lines 369-387): iterate the five
transitions in order with the probability row `pr` of the cell's dice
configuration; a zero-probability transition is skipped before its linear
index is computed; the loop aborts with `-1` at the first needed target that
still holds the sentinel; otherwise it accumulates `prob * value`. -/
def this_val_loop (pr : ℕ → ℚ) (g : ℤ → ℚ) (A D a d : ℤ) : List ℕ → ℚ → ℚ
  | [], acc => acc
  | i :: rest, acc =>
    let δ := transitions.getD i (0, 0)
    if pr i = 0 then this_val_loop pr g A D a d rest acc
    else
      let idx := linear_index (a + δ.1) A (d + δ.2) D
      if g idx = -1 then -1
      else this_val_loop pr g A D a d rest (acc + pr i * g idx)

/-- One iteration of the cell scan of `update_elements` (lines 359-393),
threading the pair (grid, `num_updated`): a cell not holding the sentinel is
skipped; otherwise its value is attempted by backward induction and written
only when the computed value is `≥ 0`. -/
def update_cell (pr2 : ℕ → ℕ → ℚ) (A D : ℤ) (gn : (ℤ → ℚ) × ℕ) (a d : ℤ) :
    (ℤ → ℚ) × ℕ :=
  if gn.1 (linear_index a A d D) ≠ -1 then gn
  else
    let q := dice_index (attacker_dice a) (defender_dice d)
    let v := this_val_loop (pr2 q) gn.1 A D a d [0, 1, 2, 3, 4] 0
    if 0 ≤ v then
      (fun n => if n = linear_index a A d D then v else gn.1 n, gn.2 + 1)
    else gn

/-- The loop indices `1, 2, ..., n` as integers. -/
def int_list (n : ℕ) : List ℤ := (List.range' 1 n).map fun k : ℕ => (k : ℤ)

/-- Embeds `update_elements` (lines 341-397): one full pass over the interior
cells, ascending `a` in the outer loop and ascending `d` in the inner loop,
mutating the grid in place (threaded functionally) and counting the newly
resolved cells. -/
def update_elements (pr2 : ℕ → ℕ → ℚ) (A D : ℤ) (g : ℤ → ℚ) : (ℤ → ℚ) × ℕ :=
  (int_list A.toNat).foldl
    (fun gn a => (int_list D.toNat).foldl (fun gn' d => update_cell pr2 A D gn' a d) gn)
    (g, 0)

/-- Intended grid contents while the first pass is scanning cell `(a0, d0)`:
interior cells strictly before `(a0, d0)` in scan order are resolved to the
recurrence solution, later interior cells still hold the sentinel. -/
def mid_grid (S : ℕ) (A D a0 d0 : ℤ) : ℤ → ℚ := fun n =>
  if 0 ≤ n ∧ n < grid_size A D then
    (if n % (1 + A) ≤ 1 then 0
     else if n / (1 + A) = 0 then 1
     else if n % (1 + A) < a0 ∨ (n % (1 + A) = a0 ∧ n / (1 + A) < d0) then
       gsol S (n % (1 + A)) (n / (1 + A))
     else -1)
  else 0

theorem lin_emod (A D a d : ℤ) (h0 : 0 ≤ a) (h1 : a ≤ A) :
    linear_index a A d D % (1 + A) = a := by
  rw [linear_index, Int.add_comm, Int.add_mul_emod_self_left, Int.emod_eq_of_lt h0 (by omega)]

theorem lin_ediv (A D a d : ℤ) (h0 : 0 ≤ a) (h1 : a ≤ A) :
    linear_index a A d D / (1 + A) = d := by
  rw [linear_index, Int.add_comm, Int.add_mul_ediv_left _ _ (by omega : (1 : ℤ) + A ≠ 0),
    Int.ediv_eq_zero_of_lt h0 (by omega)]
  omega

theorem lin_range (A D a d : ℤ) (h0 : 0 ≤ a) (h1 : a ≤ A) (h2 : 0 ≤ d) (h3 : d ≤ D) :
    0 ≤ linear_index a A d D ∧ linear_index a A d D < grid_size A D := by
  rw [linear_index, grid_size]
  constructor
  · have : 0 ≤ (1 + A) * d := mul_nonneg (by omega) h2
    omega
  · have h4 : (1 + A) * d ≤ (1 + A) * D := mul_le_mul_of_nonneg_left h3 (by omega)
    have h5 : (1 + A) * (1 + D) = (1 + A) * D + (1 + A) := by ring
    omega

theorem lin_recompose (A D n : ℤ) (h0 : 0 ≤ n) (h1 : n < grid_size A D) (hA : 0 ≤ A) :
    linear_index (n % (1 + A)) A (n / (1 + A)) D = n := by
  rw [linear_index]
  have := Int.ediv_add_emod n (1 + A)
  omega

theorem mid_grid_at (S : ℕ) (A D a0 d0 a d : ℤ) (hA : 0 ≤ A)
    (h0 : 0 ≤ a) (h1 : a ≤ A) (h2 : 0 ≤ d) (h3 : d ≤ D) :
    mid_grid S A D a0 d0 (linear_index a A d D) =
      if a ≤ 1 then 0
      else if d = 0 then 1
      else if a < a0 ∨ (a = a0 ∧ d < d0) then gsol S a d
      else -1 := by
  rw [mid_grid]
  rw [if_pos (lin_range A D a d h0 h1 h2 h3)]
  rw [lin_emod A D a d h0 h1, lin_ediv A D a d h0 h1]

theorem start_grid_eq_mid (S : ℕ) (A D : ℤ) (hA : 0 ≤ A) :
    start_grid A D = mid_grid S A D 1 1 := by
  funext n
  rw [start_grid, mid_grid]
  rcases le_or_lt 0 n with h0 | h0
  · rcases lt_or_ge n (grid_size A D) with h1 | h1
    · rcases le_or_lt (n % (1 + A)) 1 with h2 | h2
      · simp only [if_pos (⟨h0, h1⟩ : 0 ≤ n ∧ n < grid_size A D), if_pos h2]
      · rcases eq_or_ne (n / (1 + A)) 0 with h3 | h3
        · simp only [if_pos (⟨h0, h1⟩ : 0 ≤ n ∧ n < grid_size A D),
            if_neg (by omega : ¬ n % (1 + A) ≤ 1), if_pos h3]
        · simp only [if_pos (⟨h0, h1⟩ : 0 ≤ n ∧ n < grid_size A D),
            if_neg (by omega : ¬ n % (1 + A) ≤ 1), if_neg h3,
            if_neg (by omega : ¬ (n % (1 + A) < 1 ∨ n % (1 + A) = 1 ∧ n / (1 + A) < 1))]
    · simp only [if_neg (by omega : ¬ (0 ≤ n ∧ n < grid_size A D))]
  · simp only [if_neg (by omega : ¬ (0 ≤ n ∧ n < grid_size A D))]

/-- A cell already covered by the scan prefix (or a boundary cell) holds the
recurrence solution in the mid-scan grid. -/
theorem mid_grid_resolved (S : ℕ) (A D a0 d0 x y : ℤ) (hA : 0 ≤ A)
    (h0 : 0 ≤ x) (h1 : x ≤ A) (h2 : 0 ≤ y) (h3 : y ≤ D)
    (hres : x ≤ 1 ∨ y = 0 ∨ x < a0 ∨ (x = a0 ∧ y < d0)) :
    mid_grid S A D a0 d0 (linear_index x A y D) = gsol S x y := by
  rw [mid_grid_at S A D a0 d0 x y hA h0 h1 h2 h3]
  rcases le_or_lt x 1 with hx | hx
  · rw [if_pos hx, gsol_bdy0 S x y hx]
  · rw [if_neg (by omega)]
    rcases eq_or_ne y 0 with hy | hy
    · rw [if_pos hy, hy, gsol_bdy1 S x 0 (by omega) (by omega)]
    · rw [if_neg hy, if_pos ((hres.resolve_left (by omega)).resolve_left hy)]

end DPRisk

namespace DPRisk

theorem this_val_loop_eval (pr : ℕ → ℚ) (g : ℤ → ℚ) (A D a d : ℤ) (l : List ℕ) :
    ∀ acc : ℚ,
      (∀ i ∈ l, pr i ≠ 0 →
        g (linear_index (a + (transitions.getD i (0, 0)).1) A
          (d + (transitions.getD i (0, 0)).2) D) ≠ -1) →
      this_val_loop pr g A D a d l acc =
        acc + (l.map fun i =>
          if pr i = 0 then 0
          else pr i * g (linear_index (a + (transitions.getD i (0, 0)).1) A
            (d + (transitions.getD i (0, 0)).2) D)).sum := by
  induction l with
  | nil =>
    intro acc _
    simp [this_val_loop]
  | cons i rest ih =>
    intro acc h
    rw [this_val_loop]
    dsimp only
    rcases eq_or_ne (pr i) 0 with hp | hp
    · rw [if_pos hp, ih _ fun j hj hpj => h j (List.mem_cons_of_mem _ hj) hpj]
      rw [List.map_cons, List.sum_cons, if_pos hp]
      ring
    · rw [if_neg hp, if_neg (h i (List.mem_cons_self _ _) hp),
        ih _ fun j hj hpj => h j (List.mem_cons_of_mem _ hj) hpj]
      rw [List.map_cons, List.sum_cons, if_neg hp]
      ring

/-- At a cell with one remaining defender unit the configuration rolls a
single defender die, and the `(0,-2)` outcome has probability zero. -/
theorem prob6_q4_zero_d1 (a0 : ℤ) (ha : 2 ≤ a0) :
    prob 6 (dice_index (attacker_dice a0) (defender_dice 1)) 4 = 0 := by
  rw [defender_dice_1]
  rcases eq_or_lt_of_le ha with h2 | h3
  · rw [← h2, attacker_dice_2, show dice_index 1 1 = 0 from by decide]
    exact prob6_row0.2.2.2.2
  · rcases eq_or_lt_of_le (show (3:ℤ) ≤ a0 by omega) with h3e | h4
    · rw [← h3e, attacker_dice_3, show dice_index 2 1 = 1 from by decide]
      exact prob6_row1.2.2.2.2
    · rw [attacker_dice_big a0 (by omega), show dice_index 3 1 = 2 from by decide]
      exact prob6_row2.2.2.2.2

theorem gsol_ne_sentinel (S : ℕ) (a d : ℤ) : gsol S a d ≠ -1 := by
  have h := gsol_nonneg S a d
  intro heq
  rw [heq] at h
  norm_num at h

theorem mid_grid_bump (S : ℕ) (A D a0 d0 n : ℤ) (hA : 2 ≤ A)
    (hne : n ≠ linear_index a0 A d0 D) :
    mid_grid S A D a0 (d0 + 1) n = mid_grid S A D a0 d0 n := by
  rw [mid_grid, mid_grid]
  rcases le_or_lt 0 n with h0 | h0
  · rcases lt_or_ge n (grid_size A D) with h1 | h1
    · simp only [if_pos (⟨h0, h1⟩ : 0 ≤ n ∧ n < grid_size A D)]
      by_cases hxy : n % (1 + A) = a0 ∧ n / (1 + A) = d0
      · exfalso
        apply hne
        rw [← hxy.1, ← hxy.2]
        exact (lin_recompose A D n h0 h1 (by omega)).symm
      · have hiff : (n % (1 + A) < a0 ∨ n % (1 + A) = a0 ∧ n / (1 + A) < d0 + 1) ↔
            (n % (1 + A) < a0 ∨ n % (1 + A) = a0 ∧ n / (1 + A) < d0) := by
          constructor
          · rintro (h | ⟨he, hl⟩)
            · exact Or.inl h
            · rcases eq_or_ne (n / (1 + A)) d0 with hd | hd
              · exact absurd ⟨he, hd⟩ hxy
              · exact Or.inr ⟨he, by omega⟩
          · rintro (h | ⟨he, hl⟩)
            · exact Or.inl h
            · exact Or.inr ⟨he, by omega⟩
        rw [if_congr hiff rfl rfl]
    · simp only [if_neg (by omega : ¬ (0 ≤ n ∧ n < grid_size A D))]
  · simp only [if_neg (by omega : ¬ (0 ≤ n ∧ n < grid_size A D))]

/-- Row a0 = 1 is entirely pre-resolved, so advancing the scan pointer across
it does not change the intended grid. -/
theorem mid_grid_row1 (S : ℕ) (A D d0 d1 : ℤ) (hA : 2 ≤ A) :
    mid_grid S A D 1 d0 = mid_grid S A D 1 d1 := by
  funext n
  rw [mid_grid, mid_grid]
  rcases le_or_lt 0 n with h0 | h0
  · rcases lt_or_ge n (grid_size A D) with h1 | h1
    · simp only [if_pos (⟨h0, h1⟩ : 0 ≤ n ∧ n < grid_size A D)]
      rcases le_or_lt (n % (1 + A)) 1 with h2 | h2
      · simp only [if_pos h2]
      · have hiff : (n % (1 + A) < 1 ∨ n % (1 + A) = 1 ∧ n / (1 + A) < d0) ↔
            (n % (1 + A) < 1 ∨ n % (1 + A) = 1 ∧ n / (1 + A) < d1) := by omega
        simp only [if_neg (by omega : ¬ n % (1 + A) ≤ 1), if_congr hiff rfl rfl]
    · simp only [if_neg (by omega : ¬ (0 ≤ n ∧ n < grid_size A D))]
  · simp only [if_neg (by omega : ¬ (0 ≤ n ∧ n < grid_size A D))]

end DPRisk

namespace DPRisk

/-- Interior unfolding of the recurrence solution. -/
theorem gsol_interior (S : ℕ) (a d : ℤ) (ha : 2 ≤ a) (hd : 1 ≤ d) :
    gsol S a d =
      (if prob S (dice_index (attacker_dice a) (defender_dice d)) 0 = 0 then 0
        else prob S (dice_index (attacker_dice a) (defender_dice d)) 0 * gsol S (a - 2) d) +
      (if prob S (dice_index (attacker_dice a) (defender_dice d)) 1 = 0 then 0
        else prob S (dice_index (attacker_dice a) (defender_dice d)) 1 * gsol S (a - 1) (d - 1)) +
      (if prob S (dice_index (attacker_dice a) (defender_dice d)) 2 = 0 then 0
        else prob S (dice_index (attacker_dice a) (defender_dice d)) 2 * gsol S (a - 1) d) +
      (if prob S (dice_index (attacker_dice a) (defender_dice d)) 3 = 0 then 0
        else prob S (dice_index (attacker_dice a) (defender_dice d)) 3 * gsol S a (d - 1)) +
      (if prob S (dice_index (attacker_dice a) (defender_dice d)) 4 = 0 then 0
        else prob S (dice_index (attacker_dice a) (defender_dice d)) 4 * gsol S a (d - 2)) := by
  rw [gsol, gsol_rec, if_neg (by omega), if_neg (by omega)]
  simp only [gsol_fold]

/-- Processing cell `(a0, d0)` in the first pass: a cell in row 1 is skipped
(it was pre-resolved to 0), and any other cell is resolved to the recurrence
solution; either way the grid becomes the intended mid-scan grid for the next
cell in scan order. -/
theorem update_cell_step (A D a0 d0 : ℤ) (c : ℕ) (hA : 2 ≤ A) (hD : 1 ≤ D)
    (ha : 1 ≤ a0) (ha2 : a0 ≤ A) (hd : 1 ≤ d0) (hd2 : d0 ≤ D) :
    update_cell (prob 6) A D (mid_grid 6 A D a0 d0, c) a0 d0 =
      (mid_grid 6 A D a0 (d0 + 1), c + if 2 ≤ a0 then 1 else 0) := by
  rcases eq_or_lt_of_le ha with h1 | h1
  · -- a0 = 1: the cell holds 0, not the sentinel, and is skipped
    have hval : mid_grid 6 A D a0 d0 (linear_index a0 A d0 D) = 0 := by
      rw [mid_grid_at 6 A D a0 d0 a0 d0 (by omega) (by omega) ha2 (by omega) hd2]
      rw [if_pos (by omega)]
    rw [update_cell, if_pos (by dsimp only; rw [hval]; norm_num)]
    rw [← h1, mid_grid_row1 6 A D d0 (d0 + 1) hA]
    rw [if_neg (by omega : ¬ (2:ℤ) ≤ 1)]
    rfl
  · -- a0 ≥ 2: the cell holds the sentinel and is resolved
    have ha0 : 2 ≤ a0 := by omega
    have hsent : mid_grid 6 A D a0 d0 (linear_index a0 A d0 D) = -1 := by
      rw [mid_grid_at 6 A D a0 d0 a0 d0 (by omega) (by omega) ha2 (by omega) hd2]
      rw [if_neg (by omega), if_neg (by omega), if_neg (by omega)]
    rw [update_cell, if_neg (by dsimp only; rw [hsent]; exact fun hc => hc rfl)]
    dsimp only
    have e0 : (transitions.getD 0 (0, 0) : ℤ × ℤ) = (-2, 0) := rfl
    have e1 : (transitions.getD 1 (0, 0) : ℤ × ℤ) = (-1, -1) := rfl
    have e2 : (transitions.getD 2 (0, 0) : ℤ × ℤ) = (-1, 0) := rfl
    have e3 : (transitions.getD 3 (0, 0) : ℤ × ℤ) = (0, -1) := rfl
    have e4 : (transitions.getD 4 (0, 0) : ℤ × ℤ) = (0, -2) := rfl
    have hq4 : d0 = 1 →
        prob 6 (dice_index (attacker_dice a0) (defender_dice d0)) 4 = 0 := by
      intro hd1
      rw [hd1]
      exact prob6_q4_zero_d1 a0 ha0
    have hres : ∀ x y : ℤ, 0 ≤ x → x ≤ A → 0 ≤ y → y ≤ D →
        (x < a0 ∨ (x = a0 ∧ y < d0)) →
        mid_grid 6 A D a0 d0 (linear_index x A y D) = gsol 6 x y := by
      intro x y u1 u2 u3 u4 u5
      exact mid_grid_resolved 6 A D a0 d0 x y (by omega) u1 u2 u3 u4 (Or.inr (Or.inr u5))
    have htv : this_val_loop (prob 6 (dice_index (attacker_dice a0) (defender_dice d0)))
        (mid_grid 6 A D a0 d0) A D a0 d0 [0, 1, 2, 3, 4] 0 = gsol 6 a0 d0 := by
      rw [this_val_loop_eval]
      · simp only [List.map_cons, List.map_nil, List.sum_cons, List.sum_nil,
          e0, e1, e2, e3, e4]
        have t0 : mid_grid 6 A D a0 d0 (linear_index (a0 + (-2, 0).1) A (d0 + (-2, 0).2) D) =
            gsol 6 (a0 - 2) d0 := by
          rw [show a0 + (-2, 0).1 = a0 - 2 by omega, show d0 + ((-2, 0) : ℤ × ℤ).2 = d0 by omega]
          exact hres _ _ (by omega) (by omega) (by omega) (by omega) (Or.inl (by omega))
        have t1 : mid_grid 6 A D a0 d0 (linear_index (a0 + (-1, -1).1) A (d0 + (-1, -1).2) D) =
            gsol 6 (a0 - 1) (d0 - 1) := by
          rw [show a0 + ((-1, -1) : ℤ × ℤ).1 = a0 - 1 by omega,
            show d0 + ((-1, -1) : ℤ × ℤ).2 = d0 - 1 by omega]
          exact hres _ _ (by omega) (by omega) (by omega) (by omega) (Or.inl (by omega))
        have t2 : mid_grid 6 A D a0 d0 (linear_index (a0 + (-1, 0).1) A (d0 + (-1, 0).2) D) =
            gsol 6 (a0 - 1) d0 := by
          rw [show a0 + ((-1, 0) : ℤ × ℤ).1 = a0 - 1 by omega,
            show d0 + ((-1, 0) : ℤ × ℤ).2 = d0 by omega]
          exact hres _ _ (by omega) (by omega) (by omega) (by omega) (Or.inl (by omega))
        have t3 : mid_grid 6 A D a0 d0 (linear_index (a0 + (0, -1).1) A (d0 + (0, -1).2) D) =
            gsol 6 a0 (d0 - 1) := by
          rw [show a0 + ((0, -1) : ℤ × ℤ).1 = a0 by omega,
            show d0 + ((0, -1) : ℤ × ℤ).2 = d0 - 1 by omega]
          exact hres _ _ (by omega) (by omega) (by omega) (by omega) (Or.inr ⟨rfl, by omega⟩)
        rw [t0, t1, t2, t3]
        rcases eq_or_lt_of_le hd with hd1 | hd1
        · -- d0 = 1: the (0,-2) transition has probability zero
          rw [if_pos (hq4 hd1.symm), gsol_interior 6 a0 d0 (by omega) (by omega),
            if_pos (hq4 hd1.symm)]
          ring
        · -- d0 ≥ 2: all five targets are in range
          have t4 : mid_grid 6 A D a0 d0 (linear_index (a0 + (0, -2).1) A (d0 + (0, -2).2) D) =
              gsol 6 a0 (d0 - 2) := by
            rw [show a0 + ((0, -2) : ℤ × ℤ).1 = a0 by omega,
              show d0 + ((0, -2) : ℤ × ℤ).2 = d0 - 2 by omega]
            exact hres _ _ (by omega) (by omega) (by omega) (by omega) (Or.inr ⟨rfl, by omega⟩)
          rw [t4, gsol_interior 6 a0 d0 (by omega) (by omega)]
          ring
      · -- every transition actually read points at a non-sentinel entry
        intro i hi hpi
        fin_cases hi
        · rw [e0, show a0 + ((-2, 0) : ℤ × ℤ).1 = a0 - 2 by omega,
            show d0 + ((-2, 0) : ℤ × ℤ).2 = d0 by omega,
            hres _ _ (by omega) (by omega) (by omega) (by omega) (Or.inl (by omega))]
          exact gsol_ne_sentinel 6 _ _
        · rw [e1, show a0 + ((-1, -1) : ℤ × ℤ).1 = a0 - 1 by omega,
            show d0 + ((-1, -1) : ℤ × ℤ).2 = d0 - 1 by omega,
            hres _ _ (by omega) (by omega) (by omega) (by omega) (Or.inl (by omega))]
          exact gsol_ne_sentinel 6 _ _
        · rw [e2, show a0 + ((-1, 0) : ℤ × ℤ).1 = a0 - 1 by omega,
            show d0 + ((-1, 0) : ℤ × ℤ).2 = d0 by omega,
            hres _ _ (by omega) (by omega) (by omega) (by omega) (Or.inl (by omega))]
          exact gsol_ne_sentinel 6 _ _
        · rw [e3, show a0 + ((0, -1) : ℤ × ℤ).1 = a0 by omega,
            show d0 + ((0, -1) : ℤ × ℤ).2 = d0 - 1 by omega,
            hres _ _ (by omega) (by omega) (by omega) (by omega) (Or.inr ⟨rfl, by omega⟩)]
          exact gsol_ne_sentinel 6 _ _
        · rcases eq_or_lt_of_le hd with hd1 | hd1
          · exact absurd (hq4 hd1.symm) hpi
          · rw [e4, show a0 + ((0, -2) : ℤ × ℤ).1 = a0 by omega,
              show d0 + ((0, -2) : ℤ × ℤ).2 = d0 - 2 by omega,
              hres _ _ (by omega) (by omega) (by omega) (by omega) (Or.inr ⟨rfl, by omega⟩)]
            exact gsol_ne_sentinel 6 _ _
    rw [htv, if_pos (gsol_nonneg 6 a0 d0)]
    rw [Prod.mk.injEq]
    constructor
    · funext n
      rcases eq_or_ne n (linear_index a0 A d0 D) with hn | hn
      · rw [hn, if_pos rfl]
        rw [mid_grid_at 6 A D a0 (d0 + 1) a0 d0 (by omega) (by omega) ha2 (by omega) hd2]
        rw [if_neg (by omega), if_neg (by omega), if_pos (Or.inr ⟨rfl, by omega⟩)]
      · rw [if_neg hn, mid_grid_bump 6 A D a0 d0 n hA hn]
    · rw [if_pos ha0]

end DPRisk

namespace DPRisk

/-- After finishing row `a0` the intended mid-scan grid is the one for the
start of row `a0 + 1`. -/
theorem mid_grid_row_advance (S : ℕ) (A D a0 : ℤ) (hA : 2 ≤ A) (hD : 1 ≤ D) :
    mid_grid S A D a0 (D + 1) = mid_grid S A D (a0 + 1) 1 := by
  funext n
  rw [mid_grid, mid_grid]
  rcases le_or_lt 0 n with h0 | h0
  · rcases lt_or_ge n (grid_size A D) with h1 | h1
    · simp only [if_pos (⟨h0, h1⟩ : 0 ≤ n ∧ n < grid_size A D)]
      rcases le_or_lt (n % (1 + A)) 1 with h2 | h2
      · simp only [if_pos h2]
      · have hy1 : 0 ≤ n / (1 + A) := Int.ediv_nonneg h0 (by omega)
        have hy2 : n / (1 + A) < 1 + D := by
          apply Int.ediv_lt_of_lt_mul (by omega)
          rw [grid_size, mul_comm] at h1
          exact h1
        have hy0 : n / (1 + A) ≠ 0 → 1 ≤ n / (1 + A) := by omega
        simp only [if_neg (by omega : ¬ n % (1 + A) ≤ 1)]
        rcases eq_or_ne (n / (1 + A)) 0 with h3 | h3
        · simp only [if_pos h3]
        · simp only [if_neg h3]
          have hiff2 : (n % (1 + A) < a0 ∨ n % (1 + A) = a0 ∧ n / (1 + A) < D + 1) ↔
              (n % (1 + A) < a0 + 1 ∨ n % (1 + A) = a0 + 1 ∧ n / (1 + A) < 1) := by
            have := hy0 h3
            omega
          rw [if_congr hiff2 rfl rfl]
    · simp only [if_neg (by omega : ¬ (0 ≤ n ∧ n < grid_size A D))]
  · simp only [if_neg (by omega : ¬ (0 ≤ n ∧ n < grid_size A D))]

theorem row_fold (A D a0 : ℤ) (hA : 2 ≤ A) (hD : 1 ≤ D) (ha : 1 ≤ a0) (ha2 : a0 ≤ A) :
    ∀ (len s : ℕ) (c : ℕ), 1 ≤ (s : ℤ) → (s : ℤ) + len = D + 1 →
      ((List.range' s len).map fun k : ℕ => (k : ℤ)).foldl
        (fun gn d => update_cell (prob 6) A D gn a0 d) (mid_grid 6 A D a0 s, c) =
      (mid_grid 6 A D a0 (D + 1), c + if 2 ≤ a0 then len else 0) := by
  intro len
  induction len with
  | zero =>
    intro s c hs hsum
    simp only [List.range'_zero, List.map_nil, List.foldl_nil]
    rw [show ((s : ℤ)) = D + 1 by omega]
    split_ifs <;> rfl
  | succ m ih =>
    intro s c hs hsum
    rw [List.range'_succ, List.map_cons, List.foldl_cons]
    rw [update_cell_step A D a0 s c hA hD ha ha2 hs (by push_cast at hsum ⊢; omega)]
    have hcast : ((s : ℤ)) + 1 = ((s + 1 : ℕ) : ℤ) := by push_cast; ring
    rw [hcast, ih (s + 1) _ (by push_cast; omega) (by push_cast at hsum ⊢; omega)]
    split_ifs <;> rw [Prod.mk.injEq] <;> exact ⟨rfl, by omega⟩

theorem outer_fold (A D : ℤ) (hA : 2 ≤ A) (hD : 1 ≤ D) :
    ∀ (len s : ℕ) (c : ℕ), 1 ≤ (s : ℤ) → (s : ℤ) + len = A + 1 →
      ((List.range' s len).map fun k : ℕ => (k : ℤ)).foldl
        (fun gn a => (int_list D.toNat).foldl
          (fun gn' d => update_cell (prob 6) A D gn' a d) gn)
        (mid_grid 6 A D s 1, c) =
      (mid_grid 6 A D (A + 1) 1,
        c + (if 2 ≤ (s : ℤ) then len else len - 1) * D.toNat) := by
  intro len
  induction len with
  | zero =>
    intro s c hs hsum
    simp only [List.range'_zero, List.map_nil, List.foldl_nil]
    rw [show ((s : ℤ)) = A + 1 by omega]
    rw [if_pos (by omega : 2 ≤ A + 1), Prod.mk.injEq]
    exact ⟨rfl, by omega⟩
  | succ m ih =>
    intro s c hs hsum
    rw [List.range'_succ, List.map_cons, List.foldl_cons]
    have hrow := row_fold A D (s : ℤ) hA hD hs (by push_cast at hsum ⊢; omega)
      D.toNat 1 c (by norm_num) (by omega)
    rw [show int_list D.toNat = (List.range' 1 D.toNat).map fun k : ℕ => (k : ℤ) from rfl]
    push_cast at hrow
    rw [hrow, mid_grid_row_advance 6 A D (s : ℤ) hA hD]
    rw [show ((List.range' 1 D.toNat).map fun k : ℕ => (k : ℤ)) = int_list D.toNat from rfl]
    have hcast : ((s : ℤ)) + 1 = ((s + 1 : ℕ) : ℤ) := by push_cast; ring
    rw [hcast, ih (s + 1) _ (by push_cast; omega) (by push_cast at hsum ⊢; omega)]
    rw [Prod.mk.injEq]
    refine ⟨rfl, ?_⟩
    rcases le_or_lt 2 (s : ℤ) with h2 | h2
    · have hsp : (2 : ℤ) ≤ ((s + 1 : ℕ) : ℤ) := by push_cast; omega
      simp only [if_pos h2, if_pos hsp]
      ring
    · have hs1 : s = 1 := by omega
      subst hs1
      have hneg : ¬ (2 : ℤ) ≤ ((1 : ℕ) : ℤ) := by norm_num
      have hsp : (2 : ℤ) ≤ ((1 + 1 : ℕ) : ℤ) := by norm_num
      simp only [if_neg hneg, if_pos hsp]
      have hm : m + 1 - 1 = m := rfl
      rw [hm]
      ring
end DPRisk

namespace DPRisk

/-- The first pass of the relaxation loop resolves every interior cell with
`a ≥ 2` (there are `(A-1)·D` of them) and produces the fully solved grid. -/
theorem pass1_eq (A D : ℤ) (hA : 2 ≤ A) (hD : 1 ≤ D) :
    update_elements (prob 6) A D (start_grid A D) =
      (mid_grid 6 A D (A + 1) 1, (A.toNat - 1) * D.toNat) := by
  rw [update_elements, start_grid_eq_mid 6 A D (by omega)]
  have h := outer_fold A D hA hD A.toNat 1 0 (by norm_num) (by push_cast; omega)
  norm_num at h
  rw [show int_list A.toNat = (List.range' 1 A.toNat).map fun k : ℕ => (k : ℤ) from rfl]
  exact h

theorem update_cell_skip (pr2 : ℕ → ℕ → ℚ) (A D : ℤ) (g : ℤ → ℚ) (c : ℕ) (a d : ℤ)
    (h : g (linear_index a A d D) ≠ -1) : update_cell pr2 A D (g, c) a d = (g, c) := by
  rw [update_cell, if_pos h]

theorem row_skip (pr2 : ℕ → ℕ → ℚ) (A D : ℤ) (g : ℤ → ℚ) (c : ℕ) (a : ℤ)
    (h : ∀ d : ℤ, 1 ≤ d → d ≤ D → g (linear_index a A d D) ≠ -1) :
    ∀ (len s : ℕ), 1 ≤ (s : ℤ) → (s : ℤ) + len ≤ D + 1 →
      ((List.range' s len).map fun k : ℕ => (k : ℤ)).foldl
        (fun gn d => update_cell pr2 A D gn a d) (g, c) = (g, c) := by
  intro len
  induction len with
  | zero => intro s _ _; simp
  | succ m ih =>
    intro s hs hsum
    rw [List.range'_succ, List.map_cons, List.foldl_cons,
      update_cell_skip pr2 A D g c a (s : ℤ) (h (s : ℤ) hs (by push_cast at hsum ⊢; omega))]
    exact ih (s + 1) (by push_cast; omega) (by push_cast at hsum ⊢; omega)

theorem pass_skip (pr2 : ℕ → ℕ → ℚ) (A D : ℤ) (hA : 0 ≤ A) (hD : 0 ≤ D) (g : ℤ → ℚ)
    (h : ∀ a d : ℤ, 1 ≤ a → a ≤ A → 1 ≤ d → d ≤ D → g (linear_index a A d D) ≠ -1) :
    update_elements pr2 A D g = (g, 0) := by
  rw [update_elements]
  have houter : ∀ (len s : ℕ), 1 ≤ (s : ℤ) → (s : ℤ) + len ≤ A + 1 →
      ((List.range' s len).map fun k : ℕ => (k : ℤ)).foldl
        (fun gn a => (int_list D.toNat).foldl
          (fun gn' d => update_cell pr2 A D gn' a d) gn) ((g, 0) : (ℤ → ℚ) × ℕ) =
      (g, 0) := by
    intro len
    induction len with
    | zero => intro s _ _; simp
    | succ m ih =>
      intro s hs hsum
      rw [List.range'_succ, List.map_cons, List.foldl_cons]
      rw [show int_list D.toNat = (List.range' 1 D.toNat).map fun k : ℕ => (k : ℤ) from rfl]
      have hrow := row_skip pr2 A D g 0 (s : ℤ)
        (fun d hd1 hd2 => h (s : ℤ) d hs (by push_cast at hsum ⊢; omega) hd1 hd2)
        D.toNat 1 (by norm_num) (by omega)
      push_cast at hrow
      rw [hrow]
      rw [show ((List.range' 1 D.toNat).map fun k : ℕ => (k : ℤ)) = int_list D.toNat from rfl]
      exact ih (s + 1) (by push_cast; omega) (by push_cast at hsum ⊢; omega)
  rw [show int_list A.toNat = (List.range' 1 A.toNat).map fun k : ℕ => (k : ℤ) from rfl]
  exact houter A.toNat 1 (by norm_num) (by push_cast; omega)

/-- Values of the fully solved grid. -/
theorem solved_grid_at (A D a d : ℤ) (hA : 2 ≤ A) (hD : 1 ≤ D)
    (h0 : 0 ≤ a) (h1 : a ≤ A) (h2 : 0 ≤ d) (h3 : d ≤ D) :
    mid_grid 6 A D (A + 1) 1 (linear_index a A d D) =
      if a ≤ 1 then 0 else if d = 0 then 1 else gsol 6 a d := by
  rw [mid_grid_at 6 A D (A + 1) 1 a d (by omega) h0 h1 h2 h3]
  rcases le_or_lt a 1 with ha | ha
  · simp only [if_pos ha]
  · have hna : ¬ a ≤ 1 := by omega
    simp only [if_neg hna]
    rcases eq_or_ne d 0 with hd | hd
    · simp only [if_pos hd]
    · simp only [if_neg hd,
        if_pos (show a < A + 1 ∨ (a = A + 1 ∧ d < 1) from Or.inl (by omega))]

/-- The second pass of the relaxation loop finds no sentinel cell and
resolves nothing. -/
theorem pass2_eq (A D : ℤ) (hA : 2 ≤ A) (hD : 1 ≤ D) :
    update_elements (prob 6) A D (mid_grid 6 A D (A + 1) 1) =
      (mid_grid 6 A D (A + 1) 1, 0) := by
  apply pass_skip (prob 6) A D (by omega) (by omega)
  intro a d ha1 ha2 hd1 hd2
  rw [solved_grid_at A D a d hA hD (by omega) ha2 (by omega) hd2]
  rcases le_or_lt a 1 with ha | ha
  · rw [if_pos ha]
    norm_num
  · rw [if_neg (by omega), if_neg (by omega)]
    exact gsol_ne_sentinel 6 a d

end DPRisk

namespace DPRisk

/-- On the fully solved grid every in-range cell holds the recurrence solution
(the boundary rows agree with `gsol` by `gsol_bdy0` / `gsol_bdy1`). -/
theorem solved_grid_gsol (A D a d : ℤ) (hA : 2 ≤ A) (hD : 1 ≤ D)
    (h0 : 0 ≤ a) (h1 : a ≤ A) (h2 : 0 ≤ d) (h3 : d ≤ D) :
    mid_grid 6 A D (A + 1) 1 (linear_index a A d D) = gsol 6 a d := by
  rw [solved_grid_at A D a d hA hD h0 h1 h2 h3]
  rcases le_or_lt a 1 with ha | ha
  · rw [if_pos ha, gsol_bdy0 6 a d ha]
  · rw [if_neg (by omega)]
    rcases eq_or_ne d 0 with hd | hd
    · rw [if_pos hd, gsol_bdy1 6 a d (by omega) (by omega)]
    · rw [if_neg hd]

/-- Embeds the `for (;;)` relaxation loop of `main` (lines 472-486), with a
fuel argument standing for the iteration count: run `update_elements`, count
the pass, stop when it resolves nothing, otherwise accumulate the resolved
count and continue. Returns (grid, elems_total, passes). -/
def solve_loop (pr2 : ℕ → ℕ → ℚ) (A D : ℤ) : ℕ → (ℤ → ℚ) → ℕ → ℕ → (ℤ → ℚ) × ℕ × ℕ
  | 0, g, total, passes => (g, total, passes)
  | fuel + 1, g, total, passes =>
    if (update_elements pr2 A D g).2 = 0 then ((update_elements pr2 A D g).1, total, passes + 1)
    else
      solve_loop pr2 A D fuel (update_elements pr2 A D g).1
        (total + (update_elements pr2 A D g).2) (passes + 1)

/-- The DP mode of `main` (lines 436-491): sentinel fill plus boundary
assignments (`start_grid`), then the relaxation loop with the S = 6 table;
the fuel bound is generous, the loop in fact stops after two passes. -/
def dp_solve (A D : ℤ) : (ℤ → ℚ) × ℕ × ℕ :=
  solve_loop (prob 6) A D (A.toNat * D.toNat + 2) (start_grid A D) 0 0

/-- With any fuel of at least 2 the relaxation loop stops after exactly two
passes: the first pass resolves all `(A-1)·D` interior cells, the second
resolves nothing. -/
theorem solve_loop_run (A D : ℤ) (hA : 2 ≤ A) (hD : 1 ≤ D) (fuel : ℕ) (hf : 2 ≤ fuel) :
    solve_loop (prob 6) A D fuel (start_grid A D) 0 0 =
      (mid_grid 6 A D (A + 1) 1, (A.toNat - 1) * D.toNat, 2) := by
  obtain ⟨f, rfl⟩ : ∃ f, fuel = f + 2 := ⟨fuel - 2, by omega⟩
  rw [show f + 2 = (f + 1) + 1 from rfl]
  rw [solve_loop, pass1_eq A D hA hD]
  dsimp only
  have hne : (A.toNat - 1) * D.toNat ≠ 0 := Nat.mul_ne_zero (by omega) (by omega)
  rw [if_neg hne]
  rw [solve_loop, pass2_eq A D hA hD]
  dsimp only
  rw [if_pos rfl]
  norm_num

theorem dp_solve_eq (A D : ℤ) (hA : 2 ≤ A) (hD : 1 ≤ D) :
    dp_solve A D = (mid_grid 6 A D (A + 1) 1, (A.toNat - 1) * D.toNat, 2) := by
  rw [dp_solve, solve_loop_run A D hA hD _ (by omega)]

theorem foldl_invariant {α β : Type} (P : α → Prop) (f : α → β → α)
    (hstep : ∀ x b, P x → P (f x b)) : ∀ (l : List β) (x : α), P x → P (l.foldl f x) := by
  intro l
  induction l with
  | nil => intro x h; simpa using h
  | cons b bs ih => intro x h; rw [List.foldl_cons]; exact ih _ (hstep x b h)

/-- A cell not holding the sentinel is never overwritten by a cell update:
either the scanned cell is that cell (then it is skipped), or the write (if
any) touches only the scanned cell's index. -/
theorem update_cell_frame (pr2 : ℕ → ℕ → ℚ) (A D : ℤ) (gn : (ℤ → ℚ) × ℕ) (a d n : ℤ)
    (h : gn.1 n ≠ -1) :
    (update_cell pr2 A D gn a d).1 n = gn.1 n := by
  rw [update_cell]
  rcases eq_or_ne (gn.1 (linear_index a A d D)) (-1) with hc | hc
  · rw [if_neg (not_not_intro hc)]
    dsimp only
    split_ifs with hv
    · dsimp only
      rw [if_neg (show ¬ n = linear_index a A d D from fun he => h (by rw [he]; exact hc))]
    · rfl
  · rw [if_pos hc]

/-- A full pass preserves the value of every cell that is already resolved. -/
theorem update_elements_frame (pr2 : ℕ → ℕ → ℚ) (A D : ℤ) (g : ℤ → ℚ) (n : ℤ)
    (h : g n ≠ -1) : (update_elements pr2 A D g).1 n = g n := by
  rw [update_elements]
  refine foldl_invariant (fun gn => gn.1 n = g n)
    (fun gn a => (int_list D.toNat).foldl (fun gn' d => update_cell pr2 A D gn' a d) gn)
    ?_ (int_list A.toNat) (g, 0) rfl
  intro x a hx
  refine foldl_invariant (fun gn => gn.1 n = g n)
    (fun gn' d => update_cell pr2 A D gn' a d) ?_ (int_list D.toNat) x hx
  intro y d hy
  rw [update_cell_frame pr2 A D y a d n (by rw [hy]; exact h)]
  exact hy

/-- The backward-induction loop aborts with `-1` whenever some transition of
nonzero probability targets a cell still holding the sentinel. -/
theorem this_val_loop_sentinel (pr : ℕ → ℚ) (g : ℤ → ℚ) (A D a d : ℤ) :
    ∀ (l : List ℕ) (acc : ℚ),
      (∃ i ∈ l, pr i ≠ 0 ∧
        g (linear_index (a + (transitions.getD i (0, 0)).1) A
            (d + (transitions.getD i (0, 0)).2) D) = -1) →
      this_val_loop pr g A D a d l acc = -1 := by
  intro l
  induction l with
  | nil => intro acc h; simp at h
  | cons j rest ih =>
    intro acc h
    obtain ⟨i, hmem, hpr, hg⟩ := h
    rw [this_val_loop]
    dsimp only
    rcases eq_or_ne (pr j) 0 with hj | hj
    · rw [if_pos hj]
      apply ih
      refine ⟨i, ?_, hpr, hg⟩
      rcases List.mem_cons.mp hmem with he | hr
      · exact absurd (by rw [he]; exact hj) hpr
      · exact hr
    · rw [if_neg hj]
      rcases eq_or_ne (g (linear_index (a + (transitions.getD j (0, 0)).1) A
          (d + (transitions.getD j (0, 0)).2) D)) (-1) with hgj | hgj
      · rw [if_pos hgj]
      · rw [if_neg hgj]
        apply ih
        refine ⟨i, ?_, hpr, hg⟩
        rcases List.mem_cons.mp hmem with he | hr
        · exact absurd (by rw [← he]; exact hg) hgj
        · exact hr

/-- A sentinel cell one of whose nonzero-probability targets is still a
sentinel is left untouched by its cell update (and the resolved count does
not move). -/
theorem update_cell_stuck (pr2 : ℕ → ℕ → ℚ) (A D : ℤ) (g : ℤ → ℚ) (c : ℕ) (a d : ℤ)
    (hs : g (linear_index a A d D) = -1)
    (h : ∃ i ∈ [0, 1, 2, 3, 4],
      pr2 (dice_index (attacker_dice a) (defender_dice d)) i ≠ 0 ∧
      g (linear_index (a + (transitions.getD i (0, 0)).1) A
          (d + (transitions.getD i (0, 0)).2) D) = -1) :
    update_cell pr2 A D (g, c) a d = (g, c) := by
  rw [update_cell, if_neg (not_not_intro hs)]
  dsimp only
  rw [this_val_loop_sentinel _ _ A D a d [0, 1, 2, 3, 4] 0 h]
  rw [if_neg (by norm_num)]

theorem attacker_dice_bounds (a : ℤ) (ha : 2 ≤ a) :
    1 ≤ attacker_dice a ∧ attacker_dice a ≤ a - 1 ∧ attacker_dice a ≤ 3 := by
  simp only [attacker_dice]
  split_ifs <;> omega

theorem defender_dice_bounds (d : ℤ) (hd : 1 ≤ d) :
    1 ≤ defender_dice d ∧ defender_dice d ≤ d ∧ defender_dice d ≤ 2 := by
  simp only [defender_dice]
  split_ifs <;> omega

theorem num_compared_le (x y : ℕ) : num_compared x y ≤ x ∧ num_compared x y ≤ y := by
  rw [num_compared]
  split_ifs <;> omega

theorem num_compared_pos (x y : ℕ) (hx : 1 ≤ x) (hy : 1 ≤ y) : 1 ≤ num_compared x y := by
  rw [num_compared]
  split_ifs <;> omega

/-- Each comparison of the inner loop of `simulate_battle` (lines 121-126)
decrements exactly one side's unit count by one. -/
theorem compare_loop_step (as ds : List ℕ) (ad : ℤ × ℤ) (n : ℕ) :
    compare_loop as ds ad (n + 1) = ((compare_loop as ds ad n).1, (compare_loop as ds ad n).2 - 1) ∨
    compare_loop as ds ad (n + 1) = ((compare_loop as ds ad n).1 - 1, (compare_loop as ds ad n).2) := by
  have hstep : compare_loop as ds ad (n + 1) =
      if as.getD n 0 > ds.getD n 0 then
        ((compare_loop as ds ad n).1, (compare_loop as ds ad n).2 - 1)
      else ((compare_loop as ds ad n).1 - 1, (compare_loop as ds ad n).2) := rfl
  rw [hstep]
  split_ifs
  · exact Or.inl rfl
  · exact Or.inr rfl

theorem compare_loop_spec (as ds : List ℕ) (ad : ℤ × ℤ) :
    ∀ n : ℕ, (compare_loop as ds ad n).1 + (compare_loop as ds ad n).2 = ad.1 + ad.2 - n ∧
      ad.1 - n ≤ (compare_loop as ds ad n).1 ∧ (compare_loop as ds ad n).1 ≤ ad.1 ∧
      ad.2 - n ≤ (compare_loop as ds ad n).2 ∧ (compare_loop as ds ad n).2 ≤ ad.2 := by
  intro n
  induction n with
  | zero => simp [compare_loop]
  | succ m ih =>
    rcases compare_loop_step as ds ad m with h | h <;>
    · rw [h]
      dsimp only
      push_cast
      omega

theorem round_outcome_spec (adice ddice : List ℕ) :
    (round_outcome adice ddice).1 + (round_outcome adice ddice).2 =
      -(num_compared adice.length ddice.length : ℤ) ∧
    -(num_compared adice.length ddice.length : ℤ) ≤ (round_outcome adice ddice).1 ∧
    (round_outcome adice ddice).1 ≤ 0 ∧
    -(num_compared adice.length ddice.length : ℤ) ≤ (round_outcome adice ddice).2 ∧
    (round_outcome adice ddice).2 ≤ 0 := by
  have h := compare_loop_spec (sortDesc adice) (sortDesc ddice) (0, 0)
    (num_compared adice.length ddice.length)
  rw [round_outcome]
  dsimp only at h ⊢
  omega

/-- One round of `simulate_battle` (lines 104-126): the attacker rolls
`attacker_dice a` dice, the defender `defender_dice d` dice, both read off the
roll stream starting at position `t` (attacker first), and the comparison
loop on the descending-sorted dice yields the round's unit-count deltas. -/
def battle_round (rolls : ℕ → ℕ) (a d : ℤ) (t : ℕ) : ℤ × ℤ :=
  round_outcome ((List.range (attacker_dice a).toNat).map fun i => rolls (t + i))
    ((List.range (defender_dice d).toNat).map fun i => rolls (t + (attacker_dice a).toNat + i))

theorem battle_round_spec (rolls : ℕ → ℕ) (a d : ℤ) (t : ℕ) (ha : 2 ≤ a) (hd : 1 ≤ d) :
    (battle_round rolls a d t).1 + (battle_round rolls a d t).2 ≤ -1 ∧
    1 - a ≤ (battle_round rolls a d t).1 ∧ (battle_round rolls a d t).1 ≤ 0 ∧
    -d ≤ (battle_round rolls a d t).2 ∧ (battle_round rolls a d t).2 ≤ 0 := by
  have h := round_outcome_spec ((List.range (attacker_dice a).toNat).map fun i => rolls (t + i))
    ((List.range (defender_dice d).toNat).map fun i => rolls (t + (attacker_dice a).toNat + i))
  rw [List.length_map, List.length_map, List.length_range, List.length_range] at h
  have hab := attacker_dice_bounds a ha
  have hdb := defender_dice_bounds d hd
  have hk1 := num_compared_le (attacker_dice a).toNat (defender_dice d).toNat
  have hk2 := num_compared_pos (attacker_dice a).toNat (defender_dice d).toNat
    (by omega) (by omega)
  simp only [battle_round]
  omega

/-- The while loop of `simulate_battle` (lines 104-127): while `a > 1 && d > 0`
play one round and continue with the updated unit counts; the position `t`
advances past the consumed rolls. Well-founded on `a + d`, which every round
strictly decreases: the Lean definition's acceptance is the termination
argument. -/
def battle_go (rolls : ℕ → ℕ) (a d : ℤ) (t : ℕ) : ℤ × ℤ :=
  if h : 1 < a ∧ 0 < d then
    battle_go rolls (a + (battle_round rolls a d t).1) (d + (battle_round rolls a d t).2)
      (t + (attacker_dice a).toNat + (defender_dice d).toNat)
  else (a, d)
termination_by (a + d).toNat
decreasing_by
  have hs := battle_round_spec rolls a d t (by omega) (by omega)
  omega

/-- Embeds `simulate_battle` (lines 95-130): run the battle loop from the
given unit counts over the roll stream and return 1 iff the defender count is
0 at termination. -/
def simulate_battle (rolls : ℕ → ℕ) (a d : ℤ) : ℤ :=
  if (battle_go rolls a d 0).2 = 0 then 1 else 0

/-- Invariants of the battle loop: from any state with `a ≥ 1`, `d ≥ 0`, the
terminal state keeps `a ≥ 1` and `d ≥ 0` and fails the loop guard. -/
theorem battle_go_spec (rolls : ℕ → ℕ) : ∀ (n : ℕ) (a d : ℤ) (t : ℕ), (a + d).toNat ≤ n →
    1 ≤ a → 0 ≤ d →
    1 ≤ (battle_go rolls a d t).1 ∧ 0 ≤ (battle_go rolls a d t).2 ∧
      ¬(1 < (battle_go rolls a d t).1 ∧ 0 < (battle_go rolls a d t).2) := by
  intro n
  induction n with
  | zero =>
    intro a d t hn ha hd
    exact absurd hn (by omega)
  | succ m ih =>
    intro a d t hn ha hd
    by_cases hg : 1 < a ∧ 0 < d
    · rw [battle_go, dif_pos hg]
      have hs := battle_round_spec rolls a d t (by omega) (by omega)
      exact ih (a + (battle_round rolls a d t).1) (d + (battle_round rolls a d t).2)
        (t + (attacker_dice a).toNat + (defender_dice d).toNat) (by omega) (by omega) (by omega)
    · rw [battle_go, dif_neg hg]
      exact ⟨ha, hd, hg⟩

/-- Unfolding one round of the battle loop while the guard holds. -/
theorem battle_go_round (rolls : ℕ → ℕ) (a d : ℤ) (t : ℕ) (ha : 1 < a) (hd : 0 < d) :
    battle_go rolls a d t =
      battle_go rolls (a + (battle_round rolls a d t).1) (d + (battle_round rolls a d t).2)
        (t + (attacker_dice a).toNat + (defender_dice d).toNat) := by
  rw [battle_go]
  rw [dif_pos ⟨ha, hd⟩]

/-- Models the argument handling of `main` (lines 404-434): the argument
count is checked first, then `A < 2 || D < 1`, then a positive sample count
selects simulation mode; `N` is read only when a fourth argument is present
and defaults to 0, and a non-positive `N` falls through to DP mode. -/
inductive MainAction : Type where
  | usageError : MainAction
  | rangeError : MainAction
  | simulate : ℤ → ℤ → ℤ → MainAction
  | dpSolve : ℤ → ℤ → MainAction
deriving DecidableEq

def main_dispatch (argc A D Narg : ℤ) : MainAction :=
  if argc ≠ 3 ∧ argc ≠ 4 then MainAction.usageError
  else if A < 2 ∨ D < 1 then MainAction.rangeError
  else if (if 3 < argc then Narg else 0) ≥ 1 then
    MainAction.simulate A D (if 3 < argc then Narg else 0)
  else MainAction.dpSolve A D

/-- The actions on which `main` prints a short diagnostic and returns 1
before computing anything (lines 404-407 and 422-425). -/
def is_rejection : MainAction → Bool
  | MainAction.usageError => true
  | MainAction.rangeError => true
  | MainAction.simulate _ _ _ => false
  | MainAction.dpSolve _ _ => false

end DPRisk

namespace DPRisk

/-- C1: for every die-face count `S ≥ 2` and each of the six configurations,
`calc_transitions` returns the denominator `S^(na+nd)` and five counts summing
to that denominator, so every row of the probability table built by
`create_prob_table` (each count divided by the denominator, in exact
arithmetic) sums to exactly 1. -/
theorem claim_C1 (S : ℕ) (hS : 2 ≤ S) :
    (∀ na nd : ℤ, (na, nd) ∈ dicetuples →
      (calc_transitions S na nd).1.length = 5 ∧
      (calc_transitions S na nd).2 = S ^ (na + nd).toNat ∧
      (calc_transitions S na nd).1.sum = (calc_transitions S na nd).2) ∧
    (∀ row ∈ create_prob_table S, row.sum = 1 ∧ row.length = 5) := by
  constructor
  · intro na nd h
    exact calc_transitions_spec S hS na nd h
  · intro row hrow
    rw [create_prob_table] at hrow
    obtain ⟨t, ht, hteq⟩ := List.mem_map.mp hrow
    obtain ⟨hlen, hden, hsum⟩ := calc_transitions_spec S hS t.1 t.2 (by
      rcases t with ⟨na, nd⟩
      exact ht)
    have hpos : 0 < (calc_transitions S t.1 t.2).2 := by
      rw [hden]
      exact pow_pos (by omega) _
    have hne : ((calc_transitions S t.1 t.2).2 : ℚ) ≠ 0 := by
      exact_mod_cast hpos.ne'
    rw [← hteq]
    dsimp only
    constructor
    · rw [sum_map_div, hsum, div_self hne]
    · rw [List.length_map, hlen]

/-- C2: in DP mode, the value finally stored at every interior state `(a, d)`
with `2 ≤ a ≤ A` and `1 ≤ d ≤ D` equals the sum, over the five outcome deltas
with nonzero probability under the configuration
`(attacker_dice a, defender_dice d)`, of that delta's probability times the
final grid value at `(a + Δa, d + Δd)`. -/
theorem claim_C2 (A D a d : ℤ) (hA : 2 ≤ A) (hD : 1 ≤ D)
    (ha1 : 2 ≤ a) (ha2 : a ≤ A) (hd1 : 1 ≤ d) (hd2 : d ≤ D) :
    (dp_solve A D).1 (linear_index a A d D) =
      ((List.range 5).map fun i =>
        if prob 6 (dice_index (attacker_dice a) (defender_dice d)) i = 0 then 0
        else prob 6 (dice_index (attacker_dice a) (defender_dice d)) i *
          (dp_solve A D).1
            (linear_index (a + (transitions.getD i (0, 0)).1) A
              (d + (transitions.getD i (0, 0)).2) D)).sum := by
  rw [dp_solve_eq A D hA hD]
  dsimp only
  rw [show List.range 5 = [0, 1, 2, 3, 4] from rfl]
  simp only [List.map_cons, List.map_nil, List.sum_cons, List.sum_nil]
  rw [show transitions.getD 0 (0, 0) = ((-2 : ℤ), (0 : ℤ)) from rfl,
    show transitions.getD 1 (0, 0) = ((-1 : ℤ), (-1 : ℤ)) from rfl,
    show transitions.getD 2 (0, 0) = ((-1 : ℤ), (0 : ℤ)) from rfl,
    show transitions.getD 3 (0, 0) = ((0 : ℤ), (-1 : ℤ)) from rfl,
    show transitions.getD 4 (0, 0) = ((0 : ℤ), (-2 : ℤ)) from rfl]
  dsimp only
  rw [show a + (-2 : ℤ) = a - 2 from by ring, show a + (-1 : ℤ) = a - 1 from by ring,
    show d + (-1 : ℤ) = d - 1 from by ring, show d + (-2 : ℤ) = d - 2 from by ring,
    show a + (0 : ℤ) = a from by ring, show d + (0 : ℤ) = d from by ring]
  rw [solved_grid_gsol A D a d hA hD (by omega) ha2 (by omega) hd2,
    solved_grid_gsol A D (a - 2) d hA hD (by omega) (by omega) (by omega) hd2,
    solved_grid_gsol A D (a - 1) (d - 1) hA hD (by omega) (by omega) (by omega) (by omega),
    solved_grid_gsol A D (a - 1) d hA hD (by omega) (by omega) (by omega) hd2,
    solved_grid_gsol A D a (d - 1) hA hD (by omega) ha2 (by omega) (by omega)]
  rcases eq_or_ne (prob 6 (dice_index (attacker_dice a) (defender_dice d)) 4) 0 with h4 | h4
  · rw [if_pos h4, gsol_interior 6 a d ha1 hd1, if_pos h4]
    ring
  · have hd2' : 2 ≤ d := by
      by_contra hlt
      have hd1' : d = 1 := by omega
      rw [hd1'] at h4
      exact h4 (prob6_q4_zero_d1 a ha1)
    rw [solved_grid_gsol A D a (d - 2) hA hD (by omega) ha2 (by omega) (by omega)]
    rw [gsol_interior 6 a d ha1 hd1]
    ring

/-- C3: for every valid `A ≥ 2`, `D ≥ 1` the relaxation loop terminates (with
any iteration allowance of at least 2, and the outcome independent of it),
and the total number of interior cells resolved across all passes equals
exactly `(A-1)·D`, so the fatal mismatch branch is never taken and the solved
grid is produced. -/
theorem claim_C3 (A D : ℤ) (hA : 2 ≤ A) (hD : 1 ≤ D) (fuel : ℕ) (hf : 2 ≤ fuel) :
    ∃ total passes : ℕ,
      solve_loop (prob 6) A D fuel (start_grid A D) 0 0 =
        (mid_grid 6 A D (A + 1) 1, total, passes) ∧
      (total : ℤ) = (A - 1) * D ∧ passes = 2 := by
  refine ⟨(A.toNat - 1) * D.toNat, 2, solve_loop_run A D hA hD fuel hf, ?_, rfl⟩
  have h1 : ((A.toNat - 1 : ℕ) : ℤ) = A - 1 := by omega
  have h2 : ((D.toNat : ℕ) : ℤ) = D := by omega
  rw [Nat.cast_mul, h1, h2]

/-- C4: in the grid as initialized before the relaxation iteration and in the
final output grid alike, rows `a = 0` and `a = 1` hold probability 0 for every
`d` in `[0, D]` (including the cell `(1, 0)`), and the column `d = 0` holds
probability 1 for every `a` in `[2, A]`. -/
theorem claim_C4 (A D a d : ℤ) (hA : 2 ≤ A) (hD : 1 ≤ D)
    (hd0 : 0 ≤ d) (hdD : d ≤ D) (ha2 : 2 ≤ a) (haA : a ≤ A) :
    start_grid A D (linear_index 0 A d D) = 0 ∧
    start_grid A D (linear_index 1 A d D) = 0 ∧
    start_grid A D (linear_index a A 0 D) = 1 ∧
    (dp_solve A D).1 (linear_index 0 A d D) = 0 ∧
    (dp_solve A D).1 (linear_index 1 A d D) = 0 ∧
    (dp_solve A D).1 (linear_index a A 0 D) = 1 := by
  have hs := start_grid_eq_mid 6 A D (by omega)
  rw [dp_solve_eq A D hA hD]
  dsimp only
  refine ⟨?_, ?_, ?_, ?_, ?_, ?_⟩
  · rw [hs, mid_grid_at 6 A D 1 1 0 d (by omega) (by omega) (by omega) hd0 hdD,
      if_pos (by norm_num)]
  · rw [hs, mid_grid_at 6 A D 1 1 1 d (by omega) (by omega) (by omega) hd0 hdD,
      if_pos le_rfl]
  · rw [hs, mid_grid_at 6 A D 1 1 a 0 (by omega) (by omega) haA (by omega) (by omega),
      if_neg (by omega), if_pos rfl]
  · rw [solved_grid_at A D 0 d hA hD (by omega) (by omega) hd0 hdD, if_pos (by norm_num)]
  · rw [solved_grid_at A D 1 d hA hD (by omega) (by omega) hd0 hdD, if_pos le_rfl]
  · rw [solved_grid_at A D a 0 hA hD (by omega) haA (by omega) (by omega),
      if_neg (by omega), if_pos rfl]

/-- C5: for each of the six configurations, the outcome delta counted by the
specialized enumeration branch of `calc_transitions` equals the delta of the
generic one-round rule of `simulate_battle`: sort each side's dice descending,
make `min(na, nd)` comparisons with ties won by the defender, each lost
comparison costing the loser one unit; in the `(3, 2)` branch the attacker's
maximum and median are compared against the defender's maximum and minimum,
and the branch's defensive `break` guard never fires. -/
theorem claim_C5 (i j k p q : ℕ) :
    delta11 i p = round_outcome [i] [p] ∧
    delta21 i j p = round_outcome [i, j] [p] ∧
    delta31 i j k p = round_outcome [i, j, k] [p] ∧
    delta12 i p q = round_outcome [i] [p, q] ∧
    delta22 i j p q = round_outcome [i, j] [p, q] ∧
    delta32 i j k p q = round_outcome [i, j, k] [p, q] ∧
    break_guard32 i j k = false :=
  ⟨round_outcome_11 i p, round_outcome_21 i j p, round_outcome_31 i j k p,
    round_outcome_12 i p q, round_outcome_22 i j p q, round_outcome_32 i j k p q,
    break_guard32_false i j k⟩

/-- C6 (amended): the program rejects the input with a diagnostic and exit
status 1 exactly when the argument count is invalid or `A < 2` or `D < 1`; a
fourth argument `N` with `N < 1` is NOT rejected — with valid `A`, `D` it
falls through to DP mode, exactly as an absent `N` does. -/
theorem claim_C6 (argc A D Narg : ℤ) :
    (is_rejection (main_dispatch argc A D Narg) = true ↔
      (argc ≠ 3 ∧ argc ≠ 4) ∨ A < 2 ∨ D < 1) ∧
    (argc = 4 → 2 ≤ A → 1 ≤ D → Narg < 1 →
      main_dispatch argc A D Narg = MainAction.dpSolve A D) ∧
    (argc = 4 → 2 ≤ A → 1 ≤ D → 1 ≤ Narg →
      main_dispatch argc A D Narg = MainAction.simulate A D Narg) ∧
    (argc = 3 → 2 ≤ A → 1 ≤ D →
      main_dispatch argc A D Narg = MainAction.dpSolve A D) := by
  refine ⟨?_, ?_, ?_, ?_⟩
  · rw [main_dispatch]
    by_cases h1 : argc ≠ 3 ∧ argc ≠ 4
    · rw [if_pos h1]
      simp only [is_rejection]
      exact iff_of_true trivial (Or.inl h1)
    · rw [if_neg h1]
      by_cases h2 : A < 2 ∨ D < 1
      · rw [if_pos h2]
        simp only [is_rejection]
        exact iff_of_true trivial (Or.inr h2)
      · rw [if_neg h2]
        have hfalse : ¬ ((argc ≠ 3 ∧ argc ≠ 4) ∨ A < 2 ∨ D < 1) := by tauto
        by_cases h3 : (if 3 < argc then Narg else 0) ≥ 1
        · rw [if_pos h3]
          simp only [is_rejection]
          exact iff_of_false (by simp) hfalse
        · rw [if_neg h3]
          simp only [is_rejection]
          exact iff_of_false (by simp) hfalse
  · intro h4 hA hD hN
    rw [main_dispatch, if_neg (by omega), if_neg (by omega),
      if_pos (show 3 < argc by omega), if_neg (by omega)]
  · intro h4 hA hD hN
    rw [main_dispatch, if_neg (by omega), if_neg (by omega),
      if_pos (show 3 < argc by omega), if_pos (by omega)]
  · intro h3 hA hD
    rw [main_dispatch, if_neg (by omega), if_neg (by omega),
      if_neg (show ¬ 3 < argc by omega), if_neg (by norm_num)]

/-- C6 counterexample to the original claim: with a present fourth argument
`N = 0 < 1` and valid `A = 2`, `D = 1`, the program does not reject — it
proceeds to the full DP computation. -/
theorem claim_C6_counterexample :
    is_rejection (main_dispatch 4 2 1 0) = false ∧ (0 : ℤ) < 1 ∧
    main_dispatch 4 2 1 0 = MainAction.dpSolve 2 1 := by
  refine ⟨by decide, by norm_num, by decide⟩

/-- C7: in the final output grid the win probability is non-decreasing in the
attacker count `a` (for fixed `d` in `[0, D]`) and non-increasing in the
defender count `d` (for fixed `a` in `[0, A]`). -/
theorem claim_C7 (A D a d : ℤ) (hA : 2 ≤ A) (hD : 1 ≤ D) (h0 : 0 ≤ a) (h2 : 0 ≤ d) :
    (a + 1 ≤ A → d ≤ D →
      (dp_solve A D).1 (linear_index a A d D) ≤
        (dp_solve A D).1 (linear_index (a + 1) A d D)) ∧
    (a ≤ A → d + 1 ≤ D →
      (dp_solve A D).1 (linear_index a A (d + 1) D) ≤
        (dp_solve A D).1 (linear_index a A d D)) := by
  rw [dp_solve_eq A D hA hD]
  dsimp only
  constructor
  · intro h1 h3
    rw [solved_grid_gsol A D a d hA hD h0 (by omega) h2 h3,
      solved_grid_gsol A D (a + 1) d hA hD (by omega) h1 h2 h3]
    exact gsol6_mono_a a d
  · intro h1 h3
    rw [solved_grid_gsol A D a (d + 1) hA hD h0 h1 (by omega) h3,
      solved_grid_gsol A D a d hA hD h0 h1 h2 (by omega)]
    exact gsol6_mono_d a d

/-- C8: a cell already holding a non-sentinel value is skipped by its cell
update and its value survives a whole pass unchanged, and a sentinel cell one
of whose nonzero-probability targets is still unresolved is not converted; so
a cell transitions from the sentinel to a resolved value at most once and
never reverts. -/
theorem claim_C8 (pr2 : ℕ → ℕ → ℚ) (A D : ℤ) (g : ℤ → ℚ) (c : ℕ) (a d n : ℤ) :
    (g n ≠ -1 → (update_elements pr2 A D g).1 n = g n) ∧
    (g (linear_index a A d D) ≠ -1 → update_cell pr2 A D (g, c) a d = (g, c)) ∧
    (g (linear_index a A d D) = -1 →
      (∃ i ∈ [0, 1, 2, 3, 4],
        pr2 (dice_index (attacker_dice a) (defender_dice d)) i ≠ 0 ∧
        g (linear_index (a + (transitions.getD i (0, 0)).1) A
            (d + (transitions.getD i (0, 0)).2) D) = -1) →
      update_cell pr2 A D (g, c) a d = (g, c)) :=
  ⟨fun h => update_elements_frame pr2 A D g n h,
    fun h => update_cell_skip pr2 A D g c a d h,
    fun hs h => update_cell_stuck pr2 A D g c a d hs h⟩

/-- C9: for valid starting counts and any roll stream the battle loop
terminates (it is a total function, well-founded on `a + d`, which each round
strictly decreases since at least one comparison is made, each decrementing
exactly one side); the terminal state never has both `a > 1` and `d > 0`,
keeps `d ≥ 0` so it satisfies `d = 0` or `a ≤ 1`, and the simulation returns
1 if and only if `d = 0` at termination. -/
theorem claim_C9 (rolls : ℕ → ℕ) (A D : ℤ) (hA : 2 ≤ A) (hD : 1 ≤ D)
    (a d : ℤ) (t : ℕ) (ha : 1 < a) (hd : 0 < d) (as ds : List ℕ) (ad : ℤ × ℤ) (m : ℕ) :
    (¬(1 < (battle_go rolls A D 0).1 ∧ 0 < (battle_go rolls A D 0).2)) ∧
    (0 ≤ (battle_go rolls A D 0).2) ∧
    ((battle_go rolls A D 0).2 = 0 ∨ (battle_go rolls A D 0).1 ≤ 1) ∧
    (simulate_battle rolls A D = 1 ↔ (battle_go rolls A D 0).2 = 0) ∧
    (battle_go rolls a d t =
      battle_go rolls (a + (battle_round rolls a d t).1) (d + (battle_round rolls a d t).2)
        (t + (attacker_dice a).toNat + (defender_dice d).toNat)) ∧
    ((battle_round rolls a d t).1 + (battle_round rolls a d t).2 ≤ -1) ∧
    (1 ≤ num_compared (attacker_dice a).toNat (defender_dice d).toNat) ∧
    (compare_loop as ds ad (m + 1) =
        ((compare_loop as ds ad m).1, (compare_loop as ds ad m).2 - 1) ∨
      compare_loop as ds ad (m + 1) =
        ((compare_loop as ds ad m).1 - 1, (compare_loop as ds ad m).2)) := by
  have hspec := battle_go_spec rolls (A + D).toNat A D 0 le_rfl (by omega) (by omega)
  have hround := battle_round_spec rolls a d t (by omega) (by omega)
  have hab := attacker_dice_bounds a (by omega)
  have hdb := defender_dice_bounds d (by omega)
  refine ⟨hspec.2.2, hspec.2.1, by omega, ?_, battle_go_round rolls a d t ha hd, hround.1,
    num_compared_pos _ _ (by omega) (by omega), compare_loop_step as ds ad m⟩
  rw [simulate_battle]
  rcases eq_or_ne ((battle_go rolls A D 0).2) 0 with hz | hz
  · rw [if_pos hz]
    simp [hz]
  · rw [if_neg hz]
    simp [hz]

/-- C10: at an undetermined interior cell `(a, d)` (so `2 ≤ a ≤ A`,
`1 ≤ d ≤ D`), every outcome delta of nonzero probability under the cell's
configuration targets coordinates inside `[0, A] × [0, D]`, and its linear
index lies inside the allocated array of `(A+1)(D+1)` entries; in particular
the out-of-range target `d - 2 = -1` is never indexed because at `d = 1` the
`(0, -2)` delta has probability zero. -/
theorem claim_C10 (A D a d : ℤ) (hA : 2 ≤ A) (hD : 1 ≤ D)
    (ha1 : 2 ≤ a) (ha2 : a ≤ A) (hd1 : 1 ≤ d) (hd2 : d ≤ D) (i : ℕ) (hi : i < 5)
    (hp : prob 6 (dice_index (attacker_dice a) (defender_dice d)) i ≠ 0) :
    0 ≤ a + (transitions.getD i (0, 0)).1 ∧ a + (transitions.getD i (0, 0)).1 ≤ A ∧
    0 ≤ d + (transitions.getD i (0, 0)).2 ∧ d + (transitions.getD i (0, 0)).2 ≤ D ∧
    0 ≤ linear_index (a + (transitions.getD i (0, 0)).1) A
        (d + (transitions.getD i (0, 0)).2) D ∧
    linear_index (a + (transitions.getD i (0, 0)).1) A
        (d + (transitions.getD i (0, 0)).2) D < grid_size A D := by
  have hd2' : i = 4 → 2 ≤ d := by
    intro h4
    by_contra hlt
    have hd1' : d = 1 := by omega
    rw [hd1', h4] at hp
    exact hp (prob6_q4_zero_d1 a ha1)
  interval_cases i
  · rw [show transitions.getD 0 (0, 0) = ((-2 : ℤ), (0 : ℤ)) from rfl]
    dsimp only
    exact ⟨by omega, by omega, by omega, by omega,
      (lin_range A D _ _ (by omega) (by omega) (by omega) (by omega)).1,
      (lin_range A D _ _ (by omega) (by omega) (by omega) (by omega)).2⟩
  · rw [show transitions.getD 1 (0, 0) = ((-1 : ℤ), (-1 : ℤ)) from rfl]
    dsimp only
    exact ⟨by omega, by omega, by omega, by omega,
      (lin_range A D _ _ (by omega) (by omega) (by omega) (by omega)).1,
      (lin_range A D _ _ (by omega) (by omega) (by omega) (by omega)).2⟩
  · rw [show transitions.getD 2 (0, 0) = ((-1 : ℤ), (0 : ℤ)) from rfl]
    dsimp only
    exact ⟨by omega, by omega, by omega, by omega,
      (lin_range A D _ _ (by omega) (by omega) (by omega) (by omega)).1,
      (lin_range A D _ _ (by omega) (by omega) (by omega) (by omega)).2⟩
  · rw [show transitions.getD 3 (0, 0) = ((0 : ℤ), (-1 : ℤ)) from rfl]
    dsimp only
    exact ⟨by omega, by omega, by omega, by omega,
      (lin_range A D _ _ (by omega) (by omega) (by omega) (by omega)).1,
      (lin_range A D _ _ (by omega) (by omega) (by omega) (by omega)).2⟩
  · rw [show transitions.getD 4 (0, 0) = ((0 : ℤ), (-2 : ℤ)) from rfl]
    dsimp only
    have hd4 := hd2' rfl
    exact ⟨by omega, by omega, by omega, by omega,
      (lin_range A D _ _ (by omega) (by omega) (by omega) (by omega)).1,
      (lin_range A D _ _ (by omega) (by omega) (by omega) (by omega)).2⟩

end DPRisk

namespace DPRisk

theorem claim_C1_witness :
    (∀ na nd : ℤ, (na, nd) ∈ dicetuples →
      (calc_transitions 2 na nd).1.length = 5 ∧
      (calc_transitions 2 na nd).2 = 2 ^ (na + nd).toNat ∧
      (calc_transitions 2 na nd).1.sum = (calc_transitions 2 na nd).2) ∧
    (∀ row ∈ create_prob_table 2, row.sum = 1 ∧ row.length = 5) :=
  claim_C1 2 (by norm_num)

theorem claim_C2_witness :
    (dp_solve 2 1).1 (linear_index 2 2 1 1) =
      ((List.range 5).map fun i =>
        if prob 6 (dice_index (attacker_dice 2) (defender_dice 1)) i = 0 then 0
        else prob 6 (dice_index (attacker_dice 2) (defender_dice 1)) i *
          (dp_solve 2 1).1
            (linear_index (2 + (transitions.getD i (0, 0)).1) 2
              (1 + (transitions.getD i (0, 0)).2) 1)).sum :=
  claim_C2 2 1 2 1 (by norm_num) (by norm_num) (by norm_num) (by norm_num) (by norm_num)
    (by norm_num)

theorem claim_C3_witness :
    ∃ total passes : ℕ,
      solve_loop (prob 6) 2 1 2 (start_grid 2 1) 0 0 =
        (mid_grid 6 2 1 (2 + 1) 1, total, passes) ∧
      (total : ℤ) = (2 - 1) * 1 ∧ passes = 2 :=
  claim_C3 2 1 (by norm_num) (by norm_num) 2 (by norm_num)

theorem claim_C4_witness :
    start_grid 2 1 (linear_index 0 2 1 1) = 0 ∧
    start_grid 2 1 (linear_index 1 2 1 1) = 0 ∧
    start_grid 2 1 (linear_index 2 2 0 1) = 1 ∧
    (dp_solve 2 1).1 (linear_index 0 2 1 1) = 0 ∧
    (dp_solve 2 1).1 (linear_index 1 2 1 1) = 0 ∧
    (dp_solve 2 1).1 (linear_index 2 2 0 1) = 1 :=
  claim_C4 2 1 2 1 (by norm_num) (by norm_num) (by norm_num) (by norm_num) (by norm_num)
    (by norm_num)

theorem claim_C7_witness :
    (dp_solve 3 2).1 (linear_index 1 3 1 2) ≤ (dp_solve 3 2).1 (linear_index (1 + 1) 3 1 2) ∧
    (dp_solve 3 2).1 (linear_index 1 3 (1 + 1) 2) ≤ (dp_solve 3 2).1 (linear_index 1 3 1 2) :=
  ⟨(claim_C7 3 2 1 1 (by norm_num) (by norm_num) (by norm_num) (by norm_num)).1
      (by norm_num) (by norm_num),
    (claim_C7 3 2 1 1 (by norm_num) (by norm_num) (by norm_num) (by norm_num)).2
      (by norm_num) (by norm_num)⟩

theorem claim_C9_witness :
    (¬(1 < (battle_go (fun _ => 3) 2 1 0).1 ∧ 0 < (battle_go (fun _ => 3) 2 1 0).2)) ∧
    (0 ≤ (battle_go (fun _ => 3) 2 1 0).2) ∧
    ((battle_go (fun _ => 3) 2 1 0).2 = 0 ∨ (battle_go (fun _ => 3) 2 1 0).1 ≤ 1) ∧
    (simulate_battle (fun _ => 3) 2 1 = 1 ↔ (battle_go (fun _ => 3) 2 1 0).2 = 0) ∧
    (battle_go (fun _ => 3) 2 1 0 =
      battle_go (fun _ => 3) (2 + (battle_round (fun _ => 3) 2 1 0).1)
        (1 + (battle_round (fun _ => 3) 2 1 0).2)
        (0 + (attacker_dice 2).toNat + (defender_dice 1).toNat)) ∧
    ((battle_round (fun _ => 3) 2 1 0).1 + (battle_round (fun _ => 3) 2 1 0).2 ≤ -1) ∧
    (1 ≤ num_compared (attacker_dice 2).toNat (defender_dice 1).toNat) ∧
    (compare_loop [4] [2] (0, 0) (0 + 1) =
        ((compare_loop [4] [2] (0, 0) 0).1, (compare_loop [4] [2] (0, 0) 0).2 - 1) ∨
      compare_loop [4] [2] (0, 0) (0 + 1) =
        ((compare_loop [4] [2] (0, 0) 0).1 - 1, (compare_loop [4] [2] (0, 0) 0).2)) :=
  claim_C9 (fun _ => 3) 2 1 (by norm_num) (by norm_num) 2 1 0 (by norm_num) (by norm_num)
    [4] [2] (0, 0) 0

theorem claim_C10_witness :
    0 ≤ 2 + (transitions.getD 2 (0, 0)).1 ∧ 2 + (transitions.getD 2 (0, 0)).1 ≤ 2 ∧
    0 ≤ 1 + (transitions.getD 2 (0, 0)).2 ∧ 1 + (transitions.getD 2 (0, 0)).2 ≤ 1 ∧
    0 ≤ linear_index (2 + (transitions.getD 2 (0, 0)).1) 2
        (1 + (transitions.getD 2 (0, 0)).2) 1 ∧
    linear_index (2 + (transitions.getD 2 (0, 0)).1) 2
        (1 + (transitions.getD 2 (0, 0)).2) 1 < grid_size 2 1 :=
  claim_C10 2 1 2 1 (by norm_num) (by norm_num) (by norm_num) (by norm_num) (by norm_num)
    (by norm_num) 2 (by norm_num)
    (by
      rw [show dice_index (attacker_dice 2) (defender_dice 1) = 0 from by decide,
        prob6_row0.2.2.1]
      norm_num)

end DPRisk
